import Mathlib

/-!
# scion-time: NTP timestamp arithmetic and packet codec

A shallow embedding of `testnet/ntimed/ntimed-tool.c` (namespace `NtimedTool`)
and of the function `shm_poll` of `misc/shmc/shmc.c` (namespace `Shmc`).

Conventions of the embedding.

* C unsigned integers are natural numbers; a conversion to a `w`-bit type is
  written as an explicit `% 2 ^ w`.  Signed integers are `Int`.
* A failed `assert` (the macros `AN`, `AZ`, `CHECK_OBJ_NOTNULL`, `WRONG`)
  aborts the process.  A function that can abort returns an `Option`, and the
  value `none` stands for the abort.
* A pointer that may be `NULL` is an `Option`; memory reached through a byte
  pointer is a `List Nat` of bytes, and `p + k` is `List.drop k`.
* `ALLOC_OBJ` is `calloc`; the allocation is taken to succeed.
-/

namespace NtimedTool

/-! ## Timestamps -/

/-- The constant `NANO_FRAC`, `2^64 / 1e9` rounded up. -/
def NANO_FRAC : Nat := 18446744074

/-- The tag `TIMESTAMP_MAGIC`. -/
def TIMESTAMP_MAGIC : Nat := 0x344cd213

/-- The record `struct timestamp`: a tag, `uint64_t sec` and `uint64_t frac`. -/
structure timestamp where
  magic : Nat
  sec : Nat
  frac : Nat
  deriving DecidableEq, Repr

/-- The ranges of the C field types of `struct timestamp`. -/
def timestamp.wf (ts : timestamp) : Prop :=
  ts.magic < 2 ^ 32 ∧ ts.sec < 2 ^ 64 ∧ ts.frac < 2 ^ 64

instance (ts : timestamp) : Decidable ts.wf := by
  unfold timestamp.wf; infer_instance

/-- A timestamp after `memset(ts, 0, sizeof *ts)`. -/
def timestamp.zero : timestamp := ⟨0, 0, 0⟩

/-- The function `ts_fixstorage`: whether the caller passes `NULL` (fresh
`calloc`) or existing storage (`memset` to zero), the result is a zeroed
timestamp carrying the tag. -/
def ts_fixstorage (storage : Option timestamp) : timestamp :=
  match storage with
  | none => { timestamp.zero with magic := TIMESTAMP_MAGIC }
  | some _ => { timestamp.zero with magic := TIMESTAMP_MAGIC }

/-- The function `TS_Nanosec`.  The arguments are `int64_t`; `(uint64_t)sec` and
`(uint32_t)nsec` are the conversions of the source and the product is taken in
`uint64_t`. -/
def TS_Nanosec (storage : Option timestamp) (sec nsec : Int) : Option timestamp :=
  let storage := ts_fixstorage storage
  if ¬ (sec ≥ 0) then none
  else if ¬ (nsec ≥ 0) then none
  else if ¬ (nsec < 1000000000) then none
  else
    some { storage with
      sec := (sec % 2 ^ 64).toNat
      frac := ((nsec % 2 ^ 32).toNat * NANO_FRAC) % 2 ^ 64 }

/-- The clock `kt_now` behind `TB_Now`, as a function of the `struct timeval`
that `gettimeofday` delivered. -/
def kt_now (storage : Option timestamp) (tv_sec tv_usec : Int) : Option timestamp :=
  TS_Nanosec storage tv_sec (tv_usec * 1000)

/-! ## Big-endian primitives -/

/-- The function `Be16dec`; the result type is `uint16_t`. -/
def Be16dec (p : List Nat) : Nat :=
  ((p.getD 0 0 <<< 8) ||| p.getD 1 0) % 2 ^ 16

/-- The function `Be32dec`; the result type is `uint32_t`. -/
def Be32dec (p : List Nat) : Nat :=
  ((p.getD 0 0 <<< 24) ||| (p.getD 1 0 <<< 16) ||| (p.getD 2 0 <<< 8) ||| p.getD 3 0) % 2 ^ 32

/-- The function `Be16enc`: the two bytes it stores.  The parameter is
`uint16_t`. -/
def Be16enc (u : Nat) : List Nat :=
  let u := u % 2 ^ 16
  [(u >>> 8) &&& 0xff, u &&& 0xff]

/-- The function `Be32enc`: the four bytes it stores.  The parameter is
`uint32_t`. -/
def Be32enc (u : Nat) : List Nat :=
  let u := u % 2 ^ 32
  [(u >>> 24) &&& 0xff, (u >>> 16) &&& 0xff, (u >>> 8) &&& 0xff, u &&& 0xff]

/-- The constant `NTP_UNIX`, evaluated in 32-bit unsigned arithmetic as the
source writes it. -/
def NTP_UNIX : Nat :=
  ((((((1970 - 1900) % 2 ^ 32 * 365) % 2 ^ 32 + 17) % 2 ^ 32 * 24) % 2 ^ 32 * 60) % 2 ^ 32 * 60)
    % 2 ^ 32

/-- The function `ntp64_2ts`.  `Be32dec(ptr) - NTP_UNIX` is a subtraction of two
32-bit unsigned values, so it wraps modulo `2^32` before it is widened. -/
def ntp64_2ts (ptr : List Nat) : timestamp :=
  { magic := TIMESTAMP_MAGIC
    sec := (Be32dec ptr + 2 ^ 32 - NTP_UNIX) % 2 ^ 32
    frac := (Be32dec (ptr.drop 4) <<< 32) % 2 ^ 64 }

/-- The function `ntp32_2ts`. -/
def ntp32_2ts (ptr : List Nat) : timestamp :=
  { magic := TIMESTAMP_MAGIC
    sec := Be16dec ptr
    frac := (Be16dec (ptr.drop 2) <<< 48) % 2 ^ 64 }

/-- The function `ts_2ntp32`: the four bytes it stores, or an abort. -/
def ts_2ntp32 (ts : timestamp) : Option (List Nat) :=
  if ¬ (ts.magic = TIMESTAMP_MAGIC) then none
  else if ¬ (ts.sec < 65536) then none
  else some (Be16enc ts.sec ++ Be16enc (ts.frac >>> 48))

/-- The function `ts_2ntp64`: the eight bytes it stores, or an abort.  The sum
`ts->sec + NTP_UNIX` is taken in `uint64_t`. -/
def ts_2ntp64 (ts : timestamp) : Option (List Nat) :=
  if ¬ (ts.magic = TIMESTAMP_MAGIC) then none
  else some (Be32enc ((ts.sec + NTP_UNIX) % 2 ^ 64) ++ Be32enc (ts.frac >>> 32))

/-! ## Packets -/

/-- The tag `NTP_PACKET_MAGIC`. -/
def NTP_PACKET_MAGIC : Nat := 0x78b7f0be

/-- The record `struct ntp_packet`.  The enumerations `ntp_leap` and `ntp_mode`
are kept as their integer values and the array `uint8_t ntp_refid[4]` is a
quadruple of bytes. -/
structure ntp_packet where
  magic : Nat
  ntp_leap : Nat
  ntp_version : Nat
  ntp_mode : Nat
  ntp_stratum : Nat
  ntp_poll : Nat
  ntp_precision : Int
  ntp_delay : timestamp
  ntp_dispersion : timestamp
  ntp_refid : Nat × Nat × Nat × Nat
  ntp_reference : timestamp
  ntp_origin : timestamp
  ntp_receive : timestamp
  ntp_transmit : timestamp
  ts_rx : timestamp
  deriving DecidableEq, Repr

/-- The ranges of the C field types of `struct ntp_packet`. -/
def ntp_packet.wf (np : ntp_packet) : Prop :=
  np.magic < 2 ^ 32 ∧ np.ntp_leap < 2 ^ 32 ∧ np.ntp_version < 2 ^ 8 ∧ np.ntp_mode < 2 ^ 32 ∧
  np.ntp_stratum < 2 ^ 8 ∧ np.ntp_poll < 2 ^ 8 ∧
  (-128 ≤ np.ntp_precision ∧ np.ntp_precision < 128) ∧
  np.ntp_delay.wf ∧ np.ntp_dispersion.wf ∧
  (np.ntp_refid.1 < 256 ∧ np.ntp_refid.2.1 < 256 ∧ np.ntp_refid.2.2.1 < 256 ∧
    np.ntp_refid.2.2.2 < 256) ∧
  np.ntp_reference.wf ∧ np.ntp_origin.wf ∧ np.ntp_receive.wf ∧ np.ntp_transmit.wf ∧
  np.ts_rx.wf

instance (np : ntp_packet) : Decidable np.wf := by
  unfold ntp_packet.wf; infer_instance

/-- A packet record after `INIT_OBJ(np, NTP_PACKET_MAGIC)`: all zero but the
tag. -/
def ntp_packet.init : ntp_packet :=
  { magic := NTP_PACKET_MAGIC
    ntp_leap := 0, ntp_version := 0, ntp_mode := 0, ntp_stratum := 0, ntp_poll := 0
    ntp_precision := 0
    ntp_delay := timestamp.zero, ntp_dispersion := timestamp.zero
    ntp_refid := (0, 0, 0, 0)
    ntp_reference := timestamp.zero, ntp_origin := timestamp.zero
    ntp_receive := timestamp.zero, ntp_transmit := timestamp.zero
    ts_rx := timestamp.zero }

/-- The conversion `(int8_t)b` of a byte. -/
def to_int8 (b : Nat) : Int :=
  if b % 256 < 128 then ((b % 256 : Nat) : Int) else ((b % 256 : Nat) : Int) - 256

/-- The conversion `(uint8_t)x` of a signed value. -/
def to_uint8 (x : Int) : Nat := (x % 256).toNat

/-- What `NTP_Packet_Unpack` leaves behind: the record its return value points
to (`none` for `NULL`) and the caller's destination record after the call
(`none` when the caller passed `NULL`). -/
structure unpack_result where
  ret : Option ntp_packet
  dst : Option ntp_packet
  deriving DecidableEq, Repr

/-- The field assignments of `NTP_Packet_Unpack` (the body after the length
check and `INIT_OBJ`), reading the buffer `p`. -/
def unpack_fields (p : List Nat) : ntp_packet :=
  { ntp_packet.init with
    ntp_leap := p.getD 0 0 >>> 6
    ntp_version := (p.getD 0 0 >>> 3) &&& 0x7
    ntp_mode := p.getD 0 0 &&& 0x07
    ntp_stratum := p.getD 1 0
    ntp_poll := p.getD 2 0
    ntp_precision := to_int8 (p.getD 3 0)
    ntp_delay := ntp32_2ts (p.drop 4)
    ntp_dispersion := ntp32_2ts (p.drop 8)
    ntp_refid := (p.getD 12 0, p.getD 13 0, p.getD 14 0, p.getD 15 0)
    ntp_reference := ntp64_2ts (p.drop 16)
    ntp_origin := ntp64_2ts (p.drop 24)
    ntp_receive := ntp64_2ts (p.drop 32)
    ntp_transmit := ntp64_2ts (p.drop 40) }

/-- The function `NTP_Packet_Unpack`.  `np` is the destination the caller
passes (or `NULL`), `ptr` the buffer, `len` the length the caller states. -/
def NTP_Packet_Unpack (np : Option ntp_packet) (ptr : Option (List Nat)) (len : Int) :
    Option unpack_result :=
  match ptr with
  | none => none
  | some p =>
    if len ≠ 48 then some ⟨none, np⟩
    else
      match np with
      | none => some ⟨some (unpack_fields p), none⟩
      | some _ => some ⟨some (unpack_fields p), some (unpack_fields p)⟩

/-- The four bytes that `memcpy(pbuf + 12, np->ntp_refid, 4L)` stores. -/
def refid_bytes (r : Nat × Nat × Nat × Nat) : List Nat := [r.1, r.2.1, r.2.2.1, r.2.2.2]

/-- The first byte that `NTP_Packet_Pack` builds in `pbuf[0]`, a `uint8_t`
that is shifted and or-ed in place. -/
def pack_byte0 (np : ntp_packet) : Nat :=
  let b := np.ntp_leap % 256
  let b := (b <<< 3) % 256
  let b := (b ||| np.ntp_version) % 256
  let b := (b <<< 3) % 256
  (b ||| (np.ntp_mode % 256)) % 256

/-- The function `NTP_Packet_Pack`.  `ptr` is the output buffer, `len` its
stated length, `np` the record and `now` the timestamp that `TB_Now` stores
into `np->ntp_transmit` during the call.  The result is the buffer, the record
and the returned size after the call. -/
def NTP_Packet_Pack (ptr : Option (List Nat)) (len : Int) (np : ntp_packet) (now : timestamp) :
    Option (List Nat × ntp_packet × Nat) :=
  match ptr with
  | none => none
  | some pbuf =>
    if ¬ (len ≥ 48) then none
    else if ¬ (np.magic = NTP_PACKET_MAGIC) then none
    else if ¬ (np.ntp_version < 8) then none
    else if ¬ (np.ntp_stratum < 15) then none
    else
      match ts_2ntp32 np.ntp_delay, ts_2ntp32 np.ntp_dispersion,
          ts_2ntp64 np.ntp_reference, ts_2ntp64 np.ntp_origin, ts_2ntp64 np.ntp_receive,
          ts_2ntp64 now with
      | some delay, some dispersion, some reference, some origin, some receive, some transmit =>
        some ([pack_byte0 np, np.ntp_stratum, np.ntp_poll, to_uint8 np.ntp_precision]
                ++ delay ++ dispersion ++ refid_bytes np.ntp_refid
                ++ reference ++ origin ++ receive ++ transmit ++ pbuf.drop 48,
              { np with ntp_transmit := ntp64_2ts transmit }, 48)
      | _, _, _, _, _, _ => none

/-- The enumerator `NTP_LEAP_UNKNOWN`. -/
def NTP_LEAP_UNKNOWN : Nat := 3

/-- The enumerator `NTP_MODE_CLIENT`. -/
def NTP_MODE_CLIENT : Nat := 3

/-- The function `NTP_Tool_Client_Req`: the record it leaves behind, or an abort
for a `NULL` pointer.  `INIT_OBJ(np, ...)` zeroes the whole record first, and
`INIT_OBJ` on a member timestamp zeroes and tags that timestamp. -/
def NTP_Tool_Client_Req (np : Option ntp_packet) : Option ntp_packet :=
  match np with
  | none => none
  | some _ =>
    some { ntp_packet.init with
      ntp_leap := NTP_LEAP_UNKNOWN
      ntp_version := 4
      ntp_mode := NTP_MODE_CLIENT
      ntp_stratum := 0
      ntp_poll := 4
      ntp_precision := -6
      ntp_delay := { timestamp.zero with magic := TIMESTAMP_MAGIC, sec := 1 }
      ntp_dispersion := { timestamp.zero with magic := TIMESTAMP_MAGIC, sec := 1 }
      ntp_reference := { timestamp.zero with magic := TIMESTAMP_MAGIC }
      ntp_origin := { timestamp.zero with magic := TIMESTAMP_MAGIC }
      ntp_receive := { timestamp.zero with magic := TIMESTAMP_MAGIC } }

/-- The two bytes of a 16-bit value, most significant first. -/
def be16 (v : Nat) : List Nat := [v / 256, v % 256]

/-- The four bytes of a 32-bit value, most significant first. -/
def be32 (v : Nat) : List Nat := [v / 16777216, v / 65536 % 256, v / 256 % 256, v % 256]

/-- The tags that `NTP_Packet_Pack` checks on a record: the packet tag and
the tag of each timestamp it encodes from the record. -/
def ntp_packet.tagged (np : ntp_packet) : Prop :=
  np.magic = NTP_PACKET_MAGIC ∧ np.ntp_delay.magic = TIMESTAMP_MAGIC ∧
  np.ntp_dispersion.magic = TIMESTAMP_MAGIC ∧ np.ntp_reference.magic = TIMESTAMP_MAGIC ∧
  np.ntp_origin.magic = TIMESTAMP_MAGIC ∧ np.ntp_receive.magic = TIMESTAMP_MAGIC

instance (np : ntp_packet) : Decidable np.tagged := by
  unfold ntp_packet.tagged; infer_instance

/-- The checks a call of `NTP_Packet_Pack` on a non-null buffer has passed
when it returns. -/
def pack_accepts (len : Int) (np : ntp_packet) (now : timestamp) : Prop :=
  48 ≤ len ∧ np.tagged ∧ np.ntp_version < 8 ∧ np.ntp_stratum < 15 ∧
  np.ntp_delay.sec < 65536 ∧ np.ntp_dispersion.sec < 65536 ∧ now.magic = TIMESTAMP_MAGIC

instance (len : Int) (np : ntp_packet) (now : timestamp) : Decidable (pack_accepts len np now) := by
  unfold pack_accepts; infer_instance

/-- The four bytes of the short wire format, by arithmetic: 16-bit seconds and
the top 16 bits of the fraction, most significant byte first. -/
def wire32 (ts : timestamp) : List Nat :=
  [ts.sec / 256, ts.sec % 256, ts.frac / 2 ^ 48 % 65536 / 256, ts.frac / 2 ^ 48 % 256]

/-- The eight bytes of the long wire format, by arithmetic: 32-bit seconds
since 1900 and the top 32 bits of the fraction, most significant byte first. -/
def wire64 (ts : timestamp) : List Nat :=
  [(ts.sec + 2208988800) % 4294967296 / 16777216, (ts.sec + 2208988800) % 16777216 / 65536,
   (ts.sec + 2208988800) % 65536 / 256, (ts.sec + 2208988800) % 256,
   ts.frac / 2 ^ 32 % 4294967296 / 16777216, ts.frac / 2 ^ 32 % 16777216 / 65536,
   ts.frac / 2 ^ 32 % 65536 / 256, ts.frac / 2 ^ 32 % 256]

/-! ## Double-precision arithmetic

The type `double` is IEEE-754 binary64 with the default rounding (to nearest,
ties to even), as on every platform the tool is built for.  Every finite
binary64 value is an integer multiple of `2^-1074`, the least subnormal; a
finite `double` `x` is represented by the integer `x * 2^1074`.  In this unit
the representable values are the integers of magnitude below `2^53` and the
integers with at most 53 significant bits.  Both zeros are the integer `0`,
which is all that `==` and `!=` can tell.  Infinities and NaN are not
represented: every value computed from timestamps stays under `2^70`, far from
`2^1024`, and a budget handed to `UdpTimedRx` is taken to be finite.  The type
of a `double` below is therefore `Int`. -/

/-- The exponent of the unit: the least positive binary64 is `2^-1074`. -/
def F64_EXP : Nat := 1074

/-- The value `1.0` in units of `2^-1074`. -/
def F64_UNIT : Nat := 1 <<< F64_EXP

/-- The least `t ≥ s` with `n < 2^(2^t)`, trying at most `fuel` candidates. -/
def bitlen_cap : Nat → Nat → Nat → Nat
  | 0, s, _ => s
  | fuel + 1, s, n => if n >>> (1 <<< s) = 0 then s else bitlen_cap fuel (s + 1) n

/-- Bisection for the position of the leading binary digit: given
`2^lo ≤ n < 2^(lo + 2^s)`, the `l` with `2^l ≤ n < 2^(l + 1)`. -/
def bitlen_search : Nat → Nat → Nat → Nat
  | 0, lo, _ => lo
  | s + 1, lo, n =>
    if n >>> (lo + (1 <<< s)) = 0 then bitlen_search s lo n
    else bitlen_search s (lo + (1 <<< s)) n

/-- The number of binary digits of `n` (`0` for `0`). -/
def bitlen (n : Nat) : Nat :=
  if n = 0 then 0 else bitlen_search (bitlen_cap n 0 n) 0 n + 1

/-- The binary64 nearest to `a / 2^k` units, ties to even, for a magnitude `a`.
The grid at `a / 2^k` has spacing `2^(sh - k)` units with
`sh = max k (bitlen a - 53)`: one unit below `2^53` units, and 53 significant
bits above. -/
def round_nearest_even (a k : Nat) : Nat :=
  let sh := max k (bitlen a - 53)
  let q := a >>> sh
  let r := a - (q <<< sh)
  let half := 1 <<< sh
  let q := if 2 * r < half then q else if half < 2 * r then q + 1
    else if q % 2 = 0 then q else q + 1
  q <<< (sh - k)

/-- The binary64 nearest to the exact value `x / 2^k` units; rounding is
symmetric in the sign. -/
def f64_round (x : Int) (k : Nat) : Int :=
  if x < 0 then -((round_nearest_even x.natAbs k : Nat) : Int)
  else ((round_nearest_even x.natAbs k : Nat) : Int)

/-- The conversion `(double)n` of an unsigned integer. -/
def f64_of_nat (n : Nat) : Int := f64_round ((n * F64_UNIT : Nat) : Int) 0

/-- The sum `x + y` in `double`. -/
def f64_add (x y : Int) : Int := f64_round (x + y) 0

/-- The difference `x - y` in `double`. -/
def f64_sub (x y : Int) : Int := f64_round (x - y) 0

/-- The product `x * y` in `double`. -/
def f64_mul (x y : Int) : Int := f64_round (x * y) F64_EXP

/-- The quotient `x / 2.0` in `double`. -/
def f64_div_two (x : Int) : Int := f64_round x 1

/-- The library function `ldexp(x, e)`, that is `x * 2^e`. -/
def ldexp (x : Int) (e : Int) : Int :=
  if e < 0 then f64_round x (-e).toNat
  else f64_round (x * ((1 <<< e.toNat : Nat) : Int)) 0

/-- The library function `lround`: the nearest integer, halfway cases away from
zero. -/
def lround (x : Int) : Int :=
  let m := (2 * x.natAbs + F64_UNIT) / (2 * F64_UNIT)
  if x < 0 then -((m : Nat) : Int) else ((m : Nat) : Int)

/-- The conversion of a `long` to `int` in `tmo_msec = lround(...)`.  For a value
outside the range of `int` the result is implementation-defined; the compilers
the tool is built with keep the low 32 bits. -/
def to_int32 (x : Int) : Int := (x + 2147483648) % 4294967296 - 2147483648

/-- The function `TS_Diff`. -/
def TS_Diff (t1 t2 : timestamp) : Option Int :=
  if ¬ (t1.magic = TIMESTAMP_MAGIC) then none
  else if ¬ (t2.magic = TIMESTAMP_MAGIC) then none
  else
    let d := ldexp (f64_sub (f64_of_nat t1.frac) (f64_of_nat t2.frac)) (-64)
    let d := f64_add d (f64_sub (f64_of_nat t1.sec) (f64_of_nat t2.sec))
    some d

/-! ## The receive loop of `main` -/

/-- The test `TS_Diff(&tx_pkt->ntp_transmit, &rx_pkt->ntp_origin) != 0.0` of
`main`: `some true` when the reply is kept, `some false` when the loop
continues with the next datagram. -/
def main_origin_matches (tx_pkt rx_pkt : ntp_packet) : Option Bool :=
  match TS_Diff tx_pkt.ntp_transmit rx_pkt.ntp_origin with
  | none => none
  | some d => some (decide (¬ (d ≠ 0)))

/-- The offset that `main` prints:
`(TS_Diff(receive, origin) + TS_Diff(transmit, ts_rx)) / 2.0`. -/
def main_offset (rx_pkt : ntp_packet) : Option Int :=
  match TS_Diff rx_pkt.ntp_receive rx_pkt.ntp_origin,
      TS_Diff rx_pkt.ntp_transmit rx_pkt.ts_rx with
  | some a, some b => some (f64_div_two (f64_add a b))
  | _, _ => none

/-- The delay that `main` prints:
`TS_Diff(ts_rx, origin) - TS_Diff(transmit, receive)`. -/
def main_delay (rx_pkt : ntp_packet) : Option Int :=
  match TS_Diff rx_pkt.ts_rx rx_pkt.ntp_origin,
      TS_Diff rx_pkt.ntp_transmit rx_pkt.ntp_receive with
  | some a, some b => some (f64_sub a b)
  | _, _ => none

/-- A timestamp as the long-format decoder produces it: tagged, `sec` below
`2^32` and `frac` a multiple of `2^32` below `2^64`. -/
def wire_decoded (ts : timestamp) : Prop :=
  ts.magic = TIMESTAMP_MAGIC ∧ ts.sec < 2 ^ 32 ∧ ts.frac < 2 ^ 64 ∧ 2 ^ 32 ∣ ts.frac

instance (ts : timestamp) : Decidable (wire_decoded ts) := by
  unfold wire_decoded; infer_instance

/-- The timeout in milliseconds that `UdpTimedRx` hands to `poll` for the
budget `tmo` (in `poll`, `-1` blocks without limit and `0` returns at once). -/
def UdpTimedRx_tmo_msec (tmo : Int) : Int :=
  if tmo = 0 then -1
  else
    let tmo_msec := to_int32 (lround (f64_mul (1000 * (F64_UNIT : Int)) tmo))
    if tmo_msec ≤ 0 then 0 else tmo_msec

/-- The budget `tmo - d` that `main` passes to `UdpTimedRx`, with `tmo = 1.0`
and `d = TS_Diff(&t1, &t0)`. -/
def main_budget (t0 t1 : timestamp) : Option Int :=
  match TS_Diff t1 t0 with
  | none => none
  | some d => some (f64_sub (F64_UNIT : Int) d)

/-- The formula of the specification for the clock offset,
`((T2 - T1) + (T3 - T4)) / 2`, each difference being `TS_Diff`. -/
def offset_formula (T1 T2 T3 T4 : timestamp) : Option Int :=
  match TS_Diff T2 T1, TS_Diff T3 T4 with
  | some a, some b => some (f64_div_two (f64_add a b))
  | _, _ => none

/-- The formula of the specification for the round-trip delay,
`(T4 - T1) - (T3 - T2)`, each difference being `TS_Diff`. -/
def delay_formula (T1 T2 T3 T4 : timestamp) : Option Int :=
  match TS_Diff T4 T1, TS_Diff T3 T2 with
  | some a, some b => some (f64_sub a b)
  | _, _ => none

/-! ## Socket addresses -/

/-- The constants of `<sys/socket.h>` and `<netinet/in.h>` that `SA_Equal`
uses; they belong to the platform, not to the repository, and are a parameter
of the embedding. -/
structure socket_abi where
  AF_INET : Nat
  AF_INET6 : Nat
  sizeof_sockaddr : Nat
  sizeof_sockaddr_in : Nat
  sizeof_sockaddr_in6 : Nat
  deriving DecidableEq, Repr

/-- The constants on Linux. -/
def linux_abi : socket_abi :=
  { AF_INET := 2, AF_INET6 := 10, sizeof_sockaddr := 16, sizeof_sockaddr_in := 16,
    sizeof_sockaddr_in6 := 28 }

/-- The memory behind a socket address pointer, as `SA_Equal` reads it through
its three casts: `sa_family` through `struct sockaddr`, `sin_port` and the bytes
of `sin_addr` through `struct sockaddr_in`, and `sin6_port`, `sin6_scope_id` and
the bytes of `sin6_addr` through `struct sockaddr_in6`. -/
structure sockaddr where
  sa_family : Nat
  sin_port : Nat
  sin_addr : List Nat
  sin6_port : Nat
  sin6_scope_id : Nat
  sin6_addr : List Nat
  deriving DecidableEq, Repr

/-- The library function `memcmp` on the first `n` bytes: zero when they agree,
otherwise the difference of the first pair of bytes that differ. -/
def memcmp : List Nat → List Nat → Nat → Int
  | _, _, 0 => 0
  | a, b, n + 1 =>
    if a.headD 0 = b.headD 0 then memcmp a.tail b.tail n
    else (a.headD 0 : Int) - (b.headD 0 : Int)

/-- The function `SA_Equal`; `abi` supplies the platform constants. -/
def SA_Equal (abi : socket_abi) (sa1 : Option sockaddr) (sl1 : Nat) (sa2 : Option sockaddr)
    (sl2 : Nat) : Option Int :=
  match sa1, sa2 with
  | some s1, some s2 =>
    if ¬ (sl1 ≥ abi.sizeof_sockaddr) then none
    else if ¬ (sl2 ≥ abi.sizeof_sockaddr) then none
    else if s1.sa_family ≠ s2.sa_family then some 0
    else if s1.sa_family = abi.AF_INET then
      if ¬ (sl1 ≥ abi.sizeof_sockaddr_in) then none
      else if ¬ (sl2 ≥ abi.sizeof_sockaddr_in) then none
      else if s1.sin_port ≠ s2.sin_port then some 0
      else if memcmp s1.sin_addr s2.sin_addr 4 ≠ 0 then some 0
      else some 1
    else if s1.sa_family = abi.AF_INET6 then
      if ¬ (sl1 ≥ abi.sizeof_sockaddr_in6) then none
      else if ¬ (sl2 ≥ abi.sizeof_sockaddr_in6) then none
      else if s1.sin6_port ≠ s2.sin6_port then some 0
      else if s1.sin6_scope_id ≠ s2.sin6_scope_id then some 0
      else if memcmp s1.sin6_addr s2.sin6_addr 16 ≠ 0 then some 0
      else some 1
    else some 0
  | _, _ => none

/-- A length that lets `SA_Equal` read the address `s`: at least a
`struct sockaddr`, and at least the structure of the family of `s`. -/
def sa_len_ok (abi : socket_abi) (s : sockaddr) (sl : Nat) : Prop :=
  abi.sizeof_sockaddr ≤ sl ∧
  (s.sa_family = abi.AF_INET → abi.sizeof_sockaddr_in ≤ sl) ∧
  (s.sa_family = abi.AF_INET6 → abi.sizeof_sockaddr_in6 ≤ sl)

instance (abi : socket_abi) (s : sockaddr) (sl : Nat) : Decidable (sa_len_ok abi s sl) := by
  unfold sa_len_ok; infer_instance

/-- The comparison in the words of the specification: same family, and for
`AF_INET` equal port and address bytes, for `AF_INET6` equal port, scope id and
address bytes. -/
def sa_same (abi : socket_abi) (s1 s2 : sockaddr) : Prop :=
  s1.sa_family = s2.sa_family ∧
  ((s1.sa_family = abi.AF_INET ∧ s1.sin_port = s2.sin_port ∧
      ∀ i, i < 4 → s1.sin_addr.getD i 0 = s2.sin_addr.getD i 0) ∨
   (s1.sa_family = abi.AF_INET6 ∧ s1.sin6_port = s2.sin6_port ∧
      s1.sin6_scope_id = s2.sin6_scope_id ∧
      ∀ i, i < 16 → s1.sin6_addr.getD i 0 = s2.sin6_addr.getD i 0))

instance (abi : socket_abi) (s1 s2 : sockaddr) : Decidable (sa_same abi s1 s2) := by
  unfold sa_same; infer_instance

/-- An IPv4 address used to instantiate the theorems. -/
def sample_sa4 : sockaddr :=
  { sa_family := 2, sin_port := 123, sin_addr := [192, 0, 2, 1]
    sin6_port := 123, sin6_scope_id := 0, sin6_addr := [] }

/-- An IPv6 address used to instantiate the theorems. -/
def sample_sa6 : sockaddr :=
  { sa_family := 10, sin_port := 123, sin_addr := [0, 0, 0, 0]
    sin6_port := 123, sin6_scope_id := 2
    sin6_addr := [254, 128, 0, 0, 0, 0, 0, 0, 0, 0, 0, 0, 0, 0, 0, 1] }

/-- A record used to instantiate the theorems: a server reply with non-trivial
fields. -/
def sample_packet : ntp_packet :=
  { magic := NTP_PACKET_MAGIC
    ntp_leap := 1, ntp_version := 4, ntp_mode := 4, ntp_stratum := 2, ntp_poll := 6
    ntp_precision := -20
    ntp_delay := ⟨TIMESTAMP_MAGIC, 3, 2 ^ 63 + 12345⟩
    ntp_dispersion := ⟨TIMESTAMP_MAGIC, 65535, 2 ^ 64 - 1⟩
    ntp_refid := (192, 168, 1, 255)
    ntp_reference := ⟨TIMESTAMP_MAGIC, 1700000000, 2 ^ 64 - 1⟩
    ntp_origin := ⟨TIMESTAMP_MAGIC, 1700000001, 2 ^ 33 + 1⟩
    ntp_receive := ⟨TIMESTAMP_MAGIC, 4294967295, 7⟩
    ntp_transmit := timestamp.zero
    ts_rx := timestamp.zero }

/-- A clock reading used to instantiate the theorems. -/
def sample_now : timestamp := ⟨TIMESTAMP_MAGIC, 1700000002, 2 ^ 63 + 2 ^ 32 + 5⟩

/-- A 48-byte buffer used to instantiate the theorems: byte `i` holds
`(7 * i + 3) % 256`, except the stratum byte, which holds 3, and byte 16, which
holds 5 so that the reference seconds lie before 1970. -/
def sample_buffer : List Nat :=
  (List.range 48).map fun i => if i = 1 then 3 else if i = 16 then 5 else (7 * i + 3) % 256

end NtimedTool

/-! ## The SHM reference clock client (`misc/shmc/shmc.c`) -/

namespace Shmc

/-- Conversion of an integer to the C type `int` (32 bits, two's complement). -/
def to_int (x : Int) : Int := (x + 2147483648) % 4294967296 - 2147483648

/-- The record `struct shmTime` that the segment holds.  The `int` and `time_t`
fields are integers; `dummy` is the array of eight unused `int`s. -/
structure shmTime where
  mode : Int
  count : Int
  clockTimeStampSec : Int
  clockTimeStampUSec : Int
  receiveTimeStampSec : Int
  receiveTimeStampUSec : Int
  leap : Int
  precision : Int
  nsamples : Int
  valid : Int
  clockTimeStampNSec : Int
  receiveTimeStampNSec : Int
  dummy : List Int
deriving DecidableEq

/-- The values `shm_poll` prints for a sample it accepts: the two
`struct timespec` locals `receive_ts` and `clock_ts`, and `t.leap`. -/
structure shm_sample where
  receive_tv_sec : Int
  receive_tv_nsec : Int
  clock_tv_sec : Int
  clock_tv_nsec : Int
  leap : Int
deriving DecidableEq

/-- Outcome of one call of `shm_poll`: the return value, the segment that `data`
points to after the call, and the sample printed (`none` when the sample is
not available or ignored). -/
structure shm_poll_result where
  ret : Int
  shm : Option shmTime
  sample : Option shm_sample
deriving DecidableEq

/-- The function `shm_poll`.  The static pointer `data` is the argument `data`,
`none` for `NULL`, and carries the contents of the segment at the copy
`t = *shm`.  The segment is shared with a writer and `count` is volatile: the
second read `shm->count` is the argument `count_reread`.  The segment of the
result records the store made by `shm_poll` itself.

The division of two `int`s truncates towards zero (`Int.tdiv`).  The products
`1000 * t.receiveTimeStampUSec` and `1000 * t.clockTimeStampUSec` are computed
in `int` and then widened to the `long` field `tv_nsec`; the conversion
`to_int` stands for the `int` result. -/
def shm_poll (data : Option shmTime) (count_reread : Int) : shm_poll_result :=
  match data with
  | none => { ret := 0, shm := none, sample := none }
  | some shm =>
    let t := shm
    if (t.mode = 1 ∧ t.count ≠ count_reread) ∨ ¬ (t.mode = 0 ∨ t.mode = 1) ∨ t.valid = 0 then
      { ret := 0, shm := some shm, sample := none }
    else
      let shm1 := { shm with valid := 0 }
      let receive_tv_sec := t.receiveTimeStampSec
      let clock_tv_sec := t.clockTimeStampSec
      if Int.tdiv t.clockTimeStampNSec 1000 = t.clockTimeStampUSec ∧
          Int.tdiv t.receiveTimeStampNSec 1000 = t.receiveTimeStampUSec then
        { ret := 1, shm := some shm1
          sample := some
            { receive_tv_sec := receive_tv_sec
              receive_tv_nsec := t.receiveTimeStampNSec
              clock_tv_sec := clock_tv_sec
              clock_tv_nsec := t.clockTimeStampNSec
              leap := t.leap } }
      else
        { ret := 1, shm := some shm1
          sample := some
            { receive_tv_sec := receive_tv_sec
              receive_tv_nsec := to_int (1000 * t.receiveTimeStampUSec)
              clock_tv_sec := clock_tv_sec
              clock_tv_nsec := to_int (1000 * t.clockTimeStampUSec)
              leap := t.leap } }

/-- A segment used to instantiate the theorems: a mode 1 sample whose
nanosecond fields agree with the microsecond fields. -/
def sample_shm : shmTime :=
  { mode := 1, count := 42
    clockTimeStampSec := 1700000000, clockTimeStampUSec := 123456
    receiveTimeStampSec := 1700000000, receiveTimeStampUSec := 123999
    leap := 0, precision := -20, nsamples := 3, valid := 1
    clockTimeStampNSec := 123456789, receiveTimeStampNSec := 123999001
    dummy := [0, 0, 0, 0, 0, 0, 0, 0] }

end Shmc

namespace NtimedTool

/-! ## Bit-level arithmetic -/

theorem or_eq_add_of_dvd {x y : Nat} (i : Nat) (hx : 2 ^ i ∣ x) (hy : y < 2 ^ i) :
    x ||| y = x + y := by
  obtain ⟨c, rfl⟩ := hx
  exact (Nat.mul_add_lt_is_or hy c).symm

theorem and_255 (a : Nat) : a &&& 0xff = a % 256 :=
  Nat.and_pow_two_sub_one_eq_mod a 8

theorem and_7 (a : Nat) : a &&& 0x7 = a % 8 :=
  Nat.and_pow_two_sub_one_eq_mod a 3

theorem Be16dec_cons (b0 b1 : Nat) (rest : List Nat) (h0 : b0 < 256) (h1 : b1 < 256) :
    Be16dec (b0 :: b1 :: rest) = b0 * 256 + b1 := by
  simp only [Be16dec, List.getD_cons_zero, List.getD_cons_succ, Nat.shiftLeft_eq]
  rw [or_eq_add_of_dvd 8 (by omega) (by omega)]
  omega

theorem Be32dec_cons (b0 b1 b2 b3 : Nat) (rest : List Nat)
    (h0 : b0 < 256) (h1 : b1 < 256) (h2 : b2 < 256) (h3 : b3 < 256) :
    Be32dec (b0 :: b1 :: b2 :: b3 :: rest) = b0 * 16777216 + b1 * 65536 + b2 * 256 + b3 := by
  simp only [Be32dec, List.getD_cons_zero, List.getD_cons_succ, Nat.shiftLeft_eq]
  have e1 : b0 * 2 ^ 24 ||| b1 * 2 ^ 16 = b0 * 2 ^ 24 + b1 * 2 ^ 16 :=
    or_eq_add_of_dvd 24 (by omega) (by omega)
  have e2 : (b0 * 2 ^ 24 + b1 * 2 ^ 16) ||| b2 * 2 ^ 8 = b0 * 2 ^ 24 + b1 * 2 ^ 16 + b2 * 2 ^ 8 :=
    or_eq_add_of_dvd 16 (by omega) (by omega)
  have e3 : (b0 * 2 ^ 24 + b1 * 2 ^ 16 + b2 * 2 ^ 8) ||| b3
      = b0 * 2 ^ 24 + b1 * 2 ^ 16 + b2 * 2 ^ 8 + b3 :=
    or_eq_add_of_dvd 8 (by omega) (by omega)
  rw [e1, e2, e3]
  omega

theorem Be16enc_eq (u : Nat) : Be16enc u = [u % 65536 / 256, u % 256] := by
  simp only [Be16enc, and_255, Nat.shiftRight_eq_div_pow]
  congr 1
  · omega
  · congr 1; omega

theorem Be32enc_eq (u : Nat) :
    Be32enc u = [u % 4294967296 / 16777216, u % 16777216 / 65536, u % 65536 / 256, u % 256] := by
  simp only [Be32enc, and_255, Nat.shiftRight_eq_div_pow]
  congr 1
  · omega
  · congr 1
    · omega
    · congr 1
      · omega
      · congr 1; omega

theorem Be16dec_Be16enc (u : Nat) (rest : List Nat) :
    Be16dec (Be16enc u ++ rest) = u % 65536 := by
  rw [Be16enc_eq]
  simp only [List.cons_append, List.nil_append]
  rw [Be16dec_cons _ _ _ (by omega) (by omega)]
  omega

theorem Be32dec_Be32enc (u : Nat) (rest : List Nat) :
    Be32dec (Be32enc u ++ rest) = u % 4294967296 := by
  rw [Be32enc_eq]
  simp only [List.cons_append, List.nil_append]
  rw [Be32dec_cons _ _ _ _ _ (by omega) (by omega) (by omega) (by omega)]
  omega

theorem NTP_UNIX_eq : NTP_UNIX = 2208988800 := by decide

theorem ntp32_2ts_cons (b0 b1 b2 b3 : Nat) (rest : List Nat)
    (h0 : b0 < 256) (h1 : b1 < 256) (h2 : b2 < 256) (h3 : b3 < 256) :
    ntp32_2ts (b0 :: b1 :: b2 :: b3 :: rest)
      = ⟨TIMESTAMP_MAGIC, b0 * 256 + b1, (b2 * 256 + b3) * 2 ^ 48⟩ := by
  simp only [ntp32_2ts, List.drop_succ_cons, List.drop_zero, Nat.shiftLeft_eq]
  rw [Be16dec_cons _ _ _ h0 h1, Be16dec_cons _ _ _ h2 h3]
  congr 1
  omega

theorem ntp64_2ts_cons (b0 b1 b2 b3 b4 b5 b6 b7 : Nat) (rest : List Nat)
    (h0 : b0 < 256) (h1 : b1 < 256) (h2 : b2 < 256) (h3 : b3 < 256)
    (h4 : b4 < 256) (h5 : b5 < 256) (h6 : b6 < 256) (h7 : b7 < 256) :
    ntp64_2ts (b0 :: b1 :: b2 :: b3 :: b4 :: b5 :: b6 :: b7 :: rest)
      = ⟨TIMESTAMP_MAGIC,
          (b0 * 16777216 + b1 * 65536 + b2 * 256 + b3 + 4294967296 - 2208988800) % 4294967296,
          (b4 * 16777216 + b5 * 65536 + b6 * 256 + b7) * 2 ^ 32⟩ := by
  simp only [ntp64_2ts, List.drop_succ_cons, List.drop_zero, Nat.shiftLeft_eq, NTP_UNIX_eq]
  rw [Be32dec_cons _ _ _ _ _ h0 h1 h2 h3, Be32dec_cons _ _ _ _ _ h4 h5 h6 h7]
  congr 1
  omega

/-- What `ts_2ntp32` stores for a tagged timestamp with `sec < 65536`. -/
theorem ts_2ntp32_eq (ts : timestamp) (hm : ts.magic = TIMESTAMP_MAGIC) (hs : ts.sec < 65536) :
    ts_2ntp32 ts = some (wire32 ts) := by
  simp only [ts_2ntp32, wire32, hm, hs, not_true_eq_false, if_false, Be16enc_eq,
    Nat.shiftRight_eq_div_pow, List.cons_append, List.nil_append,
    Option.some.injEq, List.cons.injEq, and_true]
  omega

/-- What `ts_2ntp64` stores for a tagged timestamp. -/
theorem ts_2ntp64_eq (ts : timestamp) (hm : ts.magic = TIMESTAMP_MAGIC) :
    ts_2ntp64 ts = some (wire64 ts) := by
  simp only [ts_2ntp64, wire64, hm, not_true_eq_false, if_false, Be32enc_eq,
    Nat.shiftRight_eq_div_pow, List.cons_append, List.nil_append, NTP_UNIX_eq,
    Option.some.injEq, List.cons.injEq, and_true]
  omega

theorem ntp32_2ts_wire32 (ts : timestamp) (rest : List Nat) (hs : ts.sec < 65536) :
    ntp32_2ts (wire32 ts ++ rest)
      = ⟨TIMESTAMP_MAGIC, ts.sec, ts.frac / 2 ^ 48 % 65536 * 2 ^ 48⟩ := by
  simp only [wire32, List.cons_append, List.nil_append]
  rw [ntp32_2ts_cons _ _ _ _ _ (by omega) (by omega) (by omega) (by omega)]
  simp only [timestamp.mk.injEq, true_and]
  omega

theorem ntp64_2ts_wire64 (ts : timestamp) (rest : List Nat) :
    ntp64_2ts (wire64 ts ++ rest)
      = ⟨TIMESTAMP_MAGIC, ts.sec % 2 ^ 32, ts.frac / 2 ^ 32 % 2 ^ 32 * 2 ^ 32⟩ := by
  simp only [wire64, List.cons_append, List.nil_append]
  rw [ntp64_2ts_cons _ _ _ _ _ _ _ _ _ (by omega) (by omega) (by omega) (by omega)
    (by omega) (by omega) (by omega) (by omega)]
  simp only [timestamp.mk.injEq, true_and]
  omega

/-- The bytes `NTP_Packet_Pack` writes for a record that passes its checks. -/
theorem NTP_Packet_Pack_eq (pbuf : List Nat) (len : Int) (np : ntp_packet) (now : timestamp)
    (htag : np.tagged) (hnow : now.magic = TIMESTAMP_MAGIC) (hlen : 48 ≤ len)
    (hver : np.ntp_version < 8) (hstr : np.ntp_stratum < 15)
    (hd : np.ntp_delay.sec < 65536) (hdisp : np.ntp_dispersion.sec < 65536) :
    NTP_Packet_Pack (some pbuf) len np now =
      some ([pack_byte0 np, np.ntp_stratum, np.ntp_poll, to_uint8 np.ntp_precision]
              ++ wire32 np.ntp_delay ++ wire32 np.ntp_dispersion ++ refid_bytes np.ntp_refid
              ++ wire64 np.ntp_reference ++ wire64 np.ntp_origin ++ wire64 np.ntp_receive
              ++ wire64 now ++ pbuf.drop 48,
            { np with ntp_transmit := ntp64_2ts (wire64 now) }, 48) := by
  obtain ⟨hm, h1, h2, h3, h4, h5⟩ := htag
  simp only [NTP_Packet_Pack, ge_iff_le, hlen, hm, hver, hstr, not_true_eq_false, if_false,
    ts_2ntp32_eq _ h1 hd, ts_2ntp32_eq _ h2 hdisp, ts_2ntp64_eq _ h3,
    ts_2ntp64_eq _ h4, ts_2ntp64_eq _ h5, ts_2ntp64_eq _ hnow]

theorem pack_byte0_eq (np : ntp_packet) (hleap : np.ntp_leap ≤ 3) (hver : np.ntp_version < 8)
    (hmode : np.ntp_mode ≤ 7) :
    pack_byte0 np = np.ntp_leap * 64 + np.ntp_version * 8 + np.ntp_mode := by
  simp only [pack_byte0, Nat.shiftLeft_eq]
  have e0 : np.ntp_leap % 256 = np.ntp_leap := by omega
  have e1 : np.ntp_leap * 2 ^ 3 % 256 = np.ntp_leap * 8 := by omega
  have e2 : np.ntp_leap * 8 ||| np.ntp_version = np.ntp_leap * 8 + np.ntp_version :=
    or_eq_add_of_dvd 3 (by omega) (by omega)
  have e3 : (np.ntp_leap * 8 + np.ntp_version) % 256 = np.ntp_leap * 8 + np.ntp_version := by
    omega
  have e4 : (np.ntp_leap * 8 + np.ntp_version) * 2 ^ 3 % 256
      = np.ntp_leap * 64 + np.ntp_version * 8 := by omega
  have e5 : np.ntp_mode % 256 = np.ntp_mode := by omega
  have e6 : (np.ntp_leap * 64 + np.ntp_version * 8) ||| np.ntp_mode
      = np.ntp_leap * 64 + np.ntp_version * 8 + np.ntp_mode :=
    or_eq_add_of_dvd 3 (by omega) (by omega)
  rw [e0, e1, e2, e3, e4, e5, e6]
  omega

theorem to_int8_to_uint8 (x : Int) (h0 : -128 ≤ x) (h1 : x < 128) :
    to_int8 (to_uint8 x) = x := by
  unfold to_int8 to_uint8
  have hb : (x % 256).toNat < 256 := by omega
  rw [Nat.mod_eq_of_lt hb]
  split_ifs with h <;> omega

theorem to_uint8_lt (x : Int) : to_uint8 x < 256 := by
  unfold to_uint8; omega

/-! ## Pack then unpack -/

theorem NTP_Packet_Unpack_48 (dst : Option ntp_packet) (p : List Nat) :
    NTP_Packet_Unpack dst (some p) 48
      = some ⟨some (unpack_fields p), dst.map fun _ => unpack_fields p⟩ := by
  cases dst <;> simp [NTP_Packet_Unpack]

/-- The 48 bytes of a packed record, as `NTP_Packet_Pack_eq` gives them. -/
theorem unpack_fields_packed (np : ntp_packet) (now : timestamp) (rest : List Nat)
    (hwf : np.wf) (hleap : np.ntp_leap ≤ 3) (hver : np.ntp_version < 8) (hmode : np.ntp_mode ≤ 7)
    (hd : np.ntp_delay.sec < 65536) (hdisp : np.ntp_dispersion.sec < 65536) :
    unpack_fields (List.take 48
        ([pack_byte0 np, np.ntp_stratum, np.ntp_poll, to_uint8 np.ntp_precision]
          ++ wire32 np.ntp_delay ++ wire32 np.ntp_dispersion ++ refid_bytes np.ntp_refid
          ++ wire64 np.ntp_reference ++ wire64 np.ntp_origin ++ wire64 np.ntp_receive
          ++ wire64 now ++ rest))
      = { ntp_packet.init with
          ntp_leap := np.ntp_leap
          ntp_version := np.ntp_version
          ntp_mode := np.ntp_mode
          ntp_stratum := np.ntp_stratum
          ntp_poll := np.ntp_poll
          ntp_precision := np.ntp_precision
          ntp_delay := ⟨TIMESTAMP_MAGIC, np.ntp_delay.sec, np.ntp_delay.frac / 2 ^ 48 * 2 ^ 48⟩
          ntp_dispersion :=
            ⟨TIMESTAMP_MAGIC, np.ntp_dispersion.sec, np.ntp_dispersion.frac / 2 ^ 48 * 2 ^ 48⟩
          ntp_refid := np.ntp_refid
          ntp_reference := ⟨TIMESTAMP_MAGIC, np.ntp_reference.sec % 2 ^ 32,
            np.ntp_reference.frac / 2 ^ 32 * 2 ^ 32⟩
          ntp_origin := ⟨TIMESTAMP_MAGIC, np.ntp_origin.sec % 2 ^ 32,
            np.ntp_origin.frac / 2 ^ 32 * 2 ^ 32⟩
          ntp_receive := ⟨TIMESTAMP_MAGIC, np.ntp_receive.sec % 2 ^ 32,
            np.ntp_receive.frac / 2 ^ 32 * 2 ^ 32⟩
          ntp_transmit := ntp64_2ts (wire64 now) } := by
  obtain ⟨-, -, -, -, -, hpoll, ⟨hp0, hp1⟩, ⟨-, -, hdf⟩, ⟨-, -, hpf⟩, -,
    ⟨-, -, hrf⟩, ⟨-, -, hof⟩, ⟨-, -, hvf⟩, -, -⟩ := hwf
  have hb0 := pack_byte0_eq np hleap hver hmode
  have hprec := to_int8_to_uint8 _ hp0 hp1
  have hu8 := to_uint8_lt np.ntp_precision
  simp only [wire32, wire64, refid_bytes, List.cons_append,
    List.nil_append, List.append_assoc, List.take_succ_cons, List.take_zero]
  simp only [unpack_fields, List.getD_cons_zero, List.getD_cons_succ,
    List.drop_succ_cons, List.drop_zero, hb0, hprec]
  have x0 : (np.ntp_leap * 64 + np.ntp_version * 8 + np.ntp_mode) >>> 6 = np.ntp_leap := by
    rw [Nat.shiftRight_eq_div_pow]; omega
  have x1 : (np.ntp_leap * 64 + np.ntp_version * 8 + np.ntp_mode) >>> 3 &&& 7
      = np.ntp_version := by
    rw [and_7, Nat.shiftRight_eq_div_pow]; omega
  have x2 : (np.ntp_leap * 64 + np.ntp_version * 8 + np.ntp_mode) &&& 7 = np.ntp_mode := by
    rw [and_7]; omega
  rw [x0, x1, x2]
  rw [ntp32_2ts_cons, ntp32_2ts_cons, ntp64_2ts_cons, ntp64_2ts_cons, ntp64_2ts_cons]
  · simp only [ntp_packet.mk.injEq, timestamp.mk.injEq, true_and, and_true,
      List.take_succ_cons, List.take_zero]
    constructorm* _ ∧ _ <;> omega
  all_goals omega

/-- C1.  Packing a record that satisfies the preconditions and unpacking the 48
bytes written reproduces leap, version, mode, stratum, poll, precision, refid and
every `sec` (delay, dispersion, reference, origin, receive) exactly; every `frac`
comes back with its low bits cleared, the loss being below `2^48` for the short
format and below `2^32` for the long format. -/
theorem pack_unpack_roundtrip (pbuf : List Nat) (len : Int) (np : ntp_packet) (now : timestamp)
    (dst : Option ntp_packet)
    (hwf : np.wf) (htag : np.tagged) (hnow : now.magic = TIMESTAMP_MAGIC) (hlen : 48 ≤ len)
    (hleap : np.ntp_leap ≤ 3) (hver : np.ntp_version < 8) (hmode : np.ntp_mode ≤ 7)
    (hstr : np.ntp_stratum < 15)
    (hd : np.ntp_delay.sec < 65536) (hdisp : np.ntp_dispersion.sec < 65536)
    (href : np.ntp_reference.sec < 2 ^ 32) (horig : np.ntp_origin.sec < 2 ^ 32)
    (hrecv : np.ntp_receive.sec < 2 ^ 32) :
    ∃ out np' rp,
      NTP_Packet_Pack (some pbuf) len np now = some (out, np', 48) ∧
      NTP_Packet_Unpack dst (some (out.take 48)) 48 = some ⟨some rp, dst.map fun _ => rp⟩ ∧
      rp.ntp_leap = np.ntp_leap ∧ rp.ntp_version = np.ntp_version ∧
      rp.ntp_mode = np.ntp_mode ∧ rp.ntp_stratum = np.ntp_stratum ∧
      rp.ntp_poll = np.ntp_poll ∧ rp.ntp_precision = np.ntp_precision ∧
      rp.ntp_refid = np.ntp_refid ∧
      rp.ntp_delay.sec = np.ntp_delay.sec ∧ rp.ntp_dispersion.sec = np.ntp_dispersion.sec ∧
      rp.ntp_reference.sec = np.ntp_reference.sec ∧ rp.ntp_origin.sec = np.ntp_origin.sec ∧
      rp.ntp_receive.sec = np.ntp_receive.sec ∧
      (rp.ntp_delay.frac = np.ntp_delay.frac / 2 ^ 48 * 2 ^ 48 ∧
        rp.ntp_delay.frac ≤ np.ntp_delay.frac ∧
        np.ntp_delay.frac - rp.ntp_delay.frac < 2 ^ 48) ∧
      (rp.ntp_dispersion.frac = np.ntp_dispersion.frac / 2 ^ 48 * 2 ^ 48 ∧
        rp.ntp_dispersion.frac ≤ np.ntp_dispersion.frac ∧
        np.ntp_dispersion.frac - rp.ntp_dispersion.frac < 2 ^ 48) ∧
      (rp.ntp_reference.frac = np.ntp_reference.frac / 2 ^ 32 * 2 ^ 32 ∧
        rp.ntp_reference.frac ≤ np.ntp_reference.frac ∧
        np.ntp_reference.frac - rp.ntp_reference.frac < 2 ^ 32) ∧
      (rp.ntp_origin.frac = np.ntp_origin.frac / 2 ^ 32 * 2 ^ 32 ∧
        rp.ntp_origin.frac ≤ np.ntp_origin.frac ∧
        np.ntp_origin.frac - rp.ntp_origin.frac < 2 ^ 32) ∧
      (rp.ntp_receive.frac = np.ntp_receive.frac / 2 ^ 32 * 2 ^ 32 ∧
        rp.ntp_receive.frac ≤ np.ntp_receive.frac ∧
        np.ntp_receive.frac - rp.ntp_receive.frac < 2 ^ 32) := by
  have hp := NTP_Packet_Pack_eq pbuf len np now htag hnow hlen hver hstr hd hdisp
  have hu := unpack_fields_packed np now (pbuf.drop 48) hwf hleap hver hmode hd hdisp
  obtain ⟨-, -, -, -, -, -, -, ⟨-, -, hdf⟩, ⟨-, -, hpf⟩, -,
    ⟨-, -, hrf⟩, ⟨-, -, hof⟩, ⟨-, -, hvf⟩, -, -⟩ := hwf
  refine ⟨_, _, _, hp, NTP_Packet_Unpack_48 dst _, ?_⟩
  rw [hu]
  simp only [Nat.mod_eq_of_lt href, Nat.mod_eq_of_lt horig, Nat.mod_eq_of_lt hrecv, true_and]
  omega

/-- C1, instantiated at `sample_packet`. -/
theorem pack_unpack_roundtrip_witness :
    ∃ out np' rp,
      NTP_Packet_Pack (some (List.replicate 128 0)) 128 sample_packet sample_now
        = some (out, np', 48) ∧
      NTP_Packet_Unpack none (some (out.take 48)) 48 = some ⟨some rp, none⟩ ∧
      rp.ntp_leap = 1 ∧ rp.ntp_version = 4 ∧ rp.ntp_mode = 4 ∧ rp.ntp_stratum = 2 ∧
      rp.ntp_poll = 6 ∧ rp.ntp_precision = -20 ∧ rp.ntp_refid = (192, 168, 1, 255) ∧
      rp.ntp_delay.sec = 3 ∧ rp.ntp_dispersion.sec = 65535 ∧
      rp.ntp_reference.sec = 1700000000 ∧ rp.ntp_origin.sec = 1700000001 ∧
      rp.ntp_receive.sec = 4294967295 := by
  obtain ⟨out, np', rp, h1, h2, h3, h4, h5, h6, h7, h8, h9, h10, h11, h12, h13, h14, -⟩ :=
    pack_unpack_roundtrip (List.replicate 128 0) 128 sample_packet sample_now none
      (by decide) (by decide) (by decide) (by decide) (by decide) (by decide) (by decide)
      (by decide) (by decide) (by decide) (by decide) (by decide) (by decide)
  exact ⟨out, np', rp, h1, h2, h3, h4, h5, h6, h7, h8, h9, h10, h11, h12, h13, h14⟩

/-! ## Length check of the decoder -/

/-- C2.  For every buffer and every stated length other than 48,
`NTP_Packet_Unpack` returns `NULL` and the destination record is exactly what
it was before the call. -/
theorem unpack_wrong_length (np : Option ntp_packet) (buf : List Nat) (len : Int)
    (hlen : len ≠ 48) :
    NTP_Packet_Unpack np (some buf) len = some ⟨none, np⟩ := by
  simp [NTP_Packet_Unpack, hlen]

/-- C2, instantiated at a 47-byte datagram and an existing record. -/
theorem unpack_wrong_length_witness :
    NTP_Packet_Unpack (some sample_packet) (some (List.replicate 47 0)) 47
      = some ⟨none, some sample_packet⟩ :=
  unpack_wrong_length (some sample_packet) (List.replicate 47 0) 47 (by decide)

/-! ## Unpack then pack -/

theorem list_length_48 {l : List Nat} (h : l.length = 48) :
    ∃ b0 b1 b2 b3 b4 b5 b6 b7 b8 b9 b10 b11 b12 b13 b14 b15 b16 b17 b18 b19 b20 b21 b22 b23 b24 b25 b26 b27 b28 b29 b30 b31 b32 b33 b34 b35 b36 b37 b38 b39 b40 b41 b42 b43 b44 b45 b46 b47, l = [b0, b1, b2, b3, b4, b5, b6, b7, b8, b9, b10, b11, b12, b13, b14, b15, b16, b17, b18, b19, b20, b21, b22, b23, b24, b25, b26, b27, b28, b29, b30, b31, b32, b33, b34, b35, b36, b37, b38, b39, b40, b41, b42, b43, b44, b45, b46, b47] := by
  iterate 48 (rcases l with _ | ⟨b, l⟩; · simp at h)
  rcases l with _ | ⟨b, l⟩
  · exact ⟨_, _, _, _, _, _, _, _, _, _, _, _, _, _, _, _, _, _, _, _, _, _, _, _, _, _, _, _, _, _, _, _, _, _, _, _, _, _, _, _, _, _, _, _, _, _, _, _, rfl⟩
  · simp at h

theorem wire32_ntp32_2ts (b0 b1 b2 b3 : Nat) (rest : List Nat)
    (h0 : b0 < 256) (h1 : b1 < 256) (h2 : b2 < 256) (h3 : b3 < 256) :
    wire32 (ntp32_2ts (b0 :: b1 :: b2 :: b3 :: rest)) = [b0, b1, b2, b3] := by
  rw [ntp32_2ts_cons _ _ _ _ _ h0 h1 h2 h3]
  simp only [wire32, List.cons.injEq, and_true]
  omega

theorem wire64_ntp64_2ts (b0 b1 b2 b3 b4 b5 b6 b7 : Nat) (rest : List Nat)
    (h0 : b0 < 256) (h1 : b1 < 256) (h2 : b2 < 256) (h3 : b3 < 256)
    (h4 : b4 < 256) (h5 : b5 < 256) (h6 : b6 < 256) (h7 : b7 < 256) :
    wire64 (ntp64_2ts (b0 :: b1 :: b2 :: b3 :: b4 :: b5 :: b6 :: b7 :: rest))
      = [b0, b1, b2, b3, b4, b5, b6, b7] := by
  rw [ntp64_2ts_cons _ _ _ _ _ _ _ _ _ h0 h1 h2 h3 h4 h5 h6 h7]
  simp only [wire64, List.cons.injEq, and_true]
  omega

theorem to_uint8_to_int8 (b : Nat) (h : b < 256) : to_uint8 (to_int8 b) = b := by
  unfold to_uint8 to_int8
  rw [Nat.mod_eq_of_lt h]
  split_ifs with h1 <;> omega

theorem pack_byte0_unpack_fields (p : List Nat) (h : p.getD 0 0 < 256) :
    pack_byte0 (unpack_fields p) = p.getD 0 0 := by
  have hl : (unpack_fields p).ntp_leap = p.getD 0 0 / 64 := by
    simp only [unpack_fields, Nat.shiftRight_eq_div_pow]
  have hv : (unpack_fields p).ntp_version = p.getD 0 0 / 8 % 8 := by
    simp only [unpack_fields, Nat.shiftRight_eq_div_pow, and_7]
  have hm : (unpack_fields p).ntp_mode = p.getD 0 0 % 8 := by
    simp only [unpack_fields]; exact and_7 _
  rw [pack_byte0_eq _ (by omega) (by omega) (by omega), hl, hv, hm]
  omega

/-- C3.  For every 48-byte buffer whose stratum byte is below 15 the decoded
record passes every check of `NTP_Packet_Pack`, and packing it writes bytes
0..39 identical to the buffer; bytes 40..47 hold the encoded clock reading. -/
theorem unpack_pack_inverse (buf pbuf : List Nat) (len : Int) (now : timestamp)
    (dst : Option ntp_packet)
    (hbuf : buf.length = 48) (hbytes : ∀ b ∈ buf, b < 256) (hstr : buf.getD 1 0 < 15)
    (hlen : 48 ≤ len) (hnow : now.magic = TIMESTAMP_MAGIC) :
    ∃ rp out np',
      NTP_Packet_Unpack dst (some buf) 48 = some ⟨some rp, dst.map fun _ => rp⟩ ∧
      (rp.tagged ∧ rp.ntp_version < 8 ∧ rp.ntp_stratum < 15 ∧
        rp.ntp_delay.sec < 65536 ∧ rp.ntp_dispersion.sec < 65536) ∧
      NTP_Packet_Pack (some pbuf) len rp now = some (out, np', 48) ∧
      out.take 40 = buf.take 40 ∧ (out.drop 40).take 8 = wire64 now := by
  obtain ⟨b0, b1, b2, b3, b4, b5, b6, b7, b8, b9, b10, b11, b12, b13, b14, b15, b16, b17, b18, b19, b20, b21, b22, b23, b24, b25, b26, b27, b28, b29, b30, b31, b32, b33, b34, b35, b36, b37, b38, b39, b40, b41, b42, b43, b44, b45, b46, b47, rfl⟩ := list_length_48 hbuf
  simp only [List.mem_cons, forall_eq_or_imp, List.mem_singleton, forall_eq, List.not_mem_nil,
    false_imp_iff, implies_true, and_true] at hbytes
  obtain ⟨h0, h1, h2, h3, h4, h5, h6, h7, h8, h9, h10, h11, h12, h13, h14, h15, h16, h17, h18, h19, h20, h21, h22, h23, h24, h25, h26, h27, h28, h29, h30, h31, h32, h33, h34, h35, h36, h37, h38, h39, h40, h41, h42, h43, h44, h45, h46, h47⟩ := hbytes
  simp only [List.getD_cons_zero, List.getD_cons_succ] at hstr
  have htag : (unpack_fields [b0, b1, b2, b3, b4, b5, b6, b7, b8, b9, b10, b11, b12, b13, b14, b15, b16, b17, b18, b19, b20, b21, b22, b23, b24, b25, b26, b27, b28, b29, b30, b31, b32, b33, b34, b35, b36, b37, b38, b39, b40, b41, b42, b43, b44, b45, b46, b47]).tagged := by
    simp only [ntp_packet.tagged, unpack_fields, ntp_packet.init, ntp32_2ts, ntp64_2ts, and_self]
  have hv : (unpack_fields [b0, b1, b2, b3, b4, b5, b6, b7, b8, b9, b10, b11, b12, b13, b14, b15, b16, b17, b18, b19, b20, b21, b22, b23, b24, b25, b26, b27, b28, b29, b30, b31, b32, b33, b34, b35, b36, b37, b38, b39, b40, b41, b42, b43, b44, b45, b46, b47]).ntp_version < 8 := by
    simp only [unpack_fields, and_7, List.getD_cons_zero]
    omega
  have hs : (unpack_fields [b0, b1, b2, b3, b4, b5, b6, b7, b8, b9, b10, b11, b12, b13, b14, b15, b16, b17, b18, b19, b20, b21, b22, b23, b24, b25, b26, b27, b28, b29, b30, b31, b32, b33, b34, b35, b36, b37, b38, b39, b40, b41, b42, b43, b44, b45, b46, b47]).ntp_stratum < 15 := by
    simpa only [unpack_fields, List.getD_cons_zero, List.getD_cons_succ] using hstr
  have hd : (unpack_fields [b0, b1, b2, b3, b4, b5, b6, b7, b8, b9, b10, b11, b12, b13, b14, b15, b16, b17, b18, b19, b20, b21, b22, b23, b24, b25, b26, b27, b28, b29, b30, b31, b32, b33, b34, b35, b36, b37, b38, b39, b40, b41, b42, b43, b44, b45, b46, b47]).ntp_delay.sec < 65536 := by
    simp only [unpack_fields, ntp32_2ts, Be16dec]
    omega
  have hp : (unpack_fields [b0, b1, b2, b3, b4, b5, b6, b7, b8, b9, b10, b11, b12, b13, b14, b15, b16, b17, b18, b19, b20, b21, b22, b23, b24, b25, b26, b27, b28, b29, b30, b31, b32, b33, b34, b35, b36, b37, b38, b39, b40, b41, b42, b43, b44, b45, b46, b47]).ntp_dispersion.sec < 65536 := by
    simp only [unpack_fields, ntp32_2ts, Be16dec]
    omega
  refine ⟨_, _, _, NTP_Packet_Unpack_48 dst _, ⟨htag, hv, hs, hd, hp⟩,
    NTP_Packet_Pack_eq pbuf len _ now htag hnow hlen hv hs hd hp, ?_, ?_⟩
  · have e0 : pack_byte0 (unpack_fields [b0, b1, b2, b3, b4, b5, b6, b7, b8, b9, b10, b11, b12, b13, b14, b15, b16, b17, b18, b19, b20, b21, b22, b23, b24, b25, b26, b27, b28, b29, b30, b31, b32, b33, b34, b35, b36, b37, b38, b39, b40, b41, b42, b43, b44, b45, b46, b47]) = b0 :=
      pack_byte0_unpack_fields _ h0
    have e3 : to_uint8 (unpack_fields [b0, b1, b2, b3, b4, b5, b6, b7, b8, b9, b10, b11, b12, b13, b14, b15, b16, b17, b18, b19, b20, b21, b22, b23, b24, b25, b26, b27, b28, b29, b30, b31, b32, b33, b34, b35, b36, b37, b38, b39, b40, b41, b42, b43, b44, b45, b46, b47]).ntp_precision = b3 := to_uint8_to_int8 b3 h3
    have e4 : wire32 (unpack_fields [b0, b1, b2, b3, b4, b5, b6, b7, b8, b9, b10, b11, b12, b13, b14, b15, b16, b17, b18, b19, b20, b21, b22, b23, b24, b25, b26, b27, b28, b29, b30, b31, b32, b33, b34, b35, b36, b37, b38, b39, b40, b41, b42, b43, b44, b45, b46, b47]).ntp_delay = [b4, b5, b6, b7] :=
      wire32_ntp32_2ts b4 b5 b6 b7 _ h4 h5 h6 h7
    have e5 : wire32 (unpack_fields [b0, b1, b2, b3, b4, b5, b6, b7, b8, b9, b10, b11, b12, b13, b14, b15, b16, b17, b18, b19, b20, b21, b22, b23, b24, b25, b26, b27, b28, b29, b30, b31, b32, b33, b34, b35, b36, b37, b38, b39, b40, b41, b42, b43, b44, b45, b46, b47]).ntp_dispersion = [b8, b9, b10, b11] :=
      wire32_ntp32_2ts b8 b9 b10 b11 _ h8 h9 h10 h11
    have e6 : wire64 (unpack_fields [b0, b1, b2, b3, b4, b5, b6, b7, b8, b9, b10, b11, b12, b13, b14, b15, b16, b17, b18, b19, b20, b21, b22, b23, b24, b25, b26, b27, b28, b29, b30, b31, b32, b33, b34, b35, b36, b37, b38, b39, b40, b41, b42, b43, b44, b45, b46, b47]).ntp_reference
        = [b16, b17, b18, b19, b20, b21, b22, b23] :=
      wire64_ntp64_2ts b16 b17 b18 b19 b20 b21 b22 b23 _ h16 h17 h18 h19 h20 h21 h22 h23
    have e7 : wire64 (unpack_fields [b0, b1, b2, b3, b4, b5, b6, b7, b8, b9, b10, b11, b12, b13, b14, b15, b16, b17, b18, b19, b20, b21, b22, b23, b24, b25, b26, b27, b28, b29, b30, b31, b32, b33, b34, b35, b36, b37, b38, b39, b40, b41, b42, b43, b44, b45, b46, b47]).ntp_origin
        = [b24, b25, b26, b27, b28, b29, b30, b31] :=
      wire64_ntp64_2ts b24 b25 b26 b27 b28 b29 b30 b31 _ h24 h25 h26 h27 h28 h29 h30 h31
    have e8 : wire64 (unpack_fields [b0, b1, b2, b3, b4, b5, b6, b7, b8, b9, b10, b11, b12, b13, b14, b15, b16, b17, b18, b19, b20, b21, b22, b23, b24, b25, b26, b27, b28, b29, b30, b31, b32, b33, b34, b35, b36, b37, b38, b39, b40, b41, b42, b43, b44, b45, b46, b47]).ntp_receive
        = [b32, b33, b34, b35, b36, b37, b38, b39] :=
      wire64_ntp64_2ts b32 b33 b34 b35 b36 b37 b38 b39 _ h32 h33 h34 h35 h36 h37 h38 h39
    have e1 : (unpack_fields [b0, b1, b2, b3, b4, b5, b6, b7, b8, b9, b10, b11, b12, b13, b14, b15, b16, b17, b18, b19, b20, b21, b22, b23, b24, b25, b26, b27, b28, b29, b30, b31, b32, b33, b34, b35, b36, b37, b38, b39, b40, b41, b42, b43, b44, b45, b46, b47]).ntp_stratum = b1 := rfl
    have e2 : (unpack_fields [b0, b1, b2, b3, b4, b5, b6, b7, b8, b9, b10, b11, b12, b13, b14, b15, b16, b17, b18, b19, b20, b21, b22, b23, b24, b25, b26, b27, b28, b29, b30, b31, b32, b33, b34, b35, b36, b37, b38, b39, b40, b41, b42, b43, b44, b45, b46, b47]).ntp_poll = b2 := rfl
    have e9 : refid_bytes (unpack_fields [b0, b1, b2, b3, b4, b5, b6, b7, b8, b9, b10, b11, b12, b13, b14, b15, b16, b17, b18, b19, b20, b21, b22, b23, b24, b25, b26, b27, b28, b29, b30, b31, b32, b33, b34, b35, b36, b37, b38, b39, b40, b41, b42, b43, b44, b45, b46, b47]).ntp_refid = [b12, b13, b14, b15] := rfl
    rw [e0, e1, e2, e3, e4, e5, e6, e7, e8, e9]
    simp only [List.cons_append, List.nil_append, List.append_assoc, List.take_succ_cons,
      List.take_zero]
  · have l4 : ∀ ts : timestamp, ∃ a b c d, wire32 ts = [a, b, c, d] :=
      fun ts => ⟨_, _, _, _, rfl⟩
    have l8 : ∀ ts : timestamp, ∃ a b c d e f g h, wire64 ts = [a, b, c, d, e, f, g, h] :=
      fun ts => ⟨_, _, _, _, _, _, _, _, rfl⟩
    have e9 : refid_bytes (unpack_fields [b0, b1, b2, b3, b4, b5, b6, b7, b8, b9, b10, b11, b12, b13, b14, b15, b16, b17, b18, b19, b20, b21, b22, b23, b24, b25, b26, b27, b28, b29, b30, b31, b32, b33, b34, b35, b36, b37, b38, b39, b40, b41, b42, b43, b44, b45, b46, b47]).ntp_refid = [b12, b13, b14, b15] := rfl
    obtain ⟨d0, d1, d2, d3, hd4⟩ := l4 (unpack_fields [b0, b1, b2, b3, b4, b5, b6, b7, b8, b9, b10, b11, b12, b13, b14, b15, b16, b17, b18, b19, b20, b21, b22, b23, b24, b25, b26, b27, b28, b29, b30, b31, b32, b33, b34, b35, b36, b37, b38, b39, b40, b41, b42, b43, b44, b45, b46, b47]).ntp_delay
    obtain ⟨p0, p1, p2, p3, hp4⟩ := l4 (unpack_fields [b0, b1, b2, b3, b4, b5, b6, b7, b8, b9, b10, b11, b12, b13, b14, b15, b16, b17, b18, b19, b20, b21, b22, b23, b24, b25, b26, b27, b28, b29, b30, b31, b32, b33, b34, b35, b36, b37, b38, b39, b40, b41, b42, b43, b44, b45, b46, b47]).ntp_dispersion
    obtain ⟨r0, r1, r2, r3, r4, r5, r6, r7, hr8⟩ := l8 (unpack_fields [b0, b1, b2, b3, b4, b5, b6, b7, b8, b9, b10, b11, b12, b13, b14, b15, b16, b17, b18, b19, b20, b21, b22, b23, b24, b25, b26, b27, b28, b29, b30, b31, b32, b33, b34, b35, b36, b37, b38, b39, b40, b41, b42, b43, b44, b45, b46, b47]).ntp_reference
    obtain ⟨o0, o1, o2, o3, o4, o5, o6, o7, ho8⟩ := l8 (unpack_fields [b0, b1, b2, b3, b4, b5, b6, b7, b8, b9, b10, b11, b12, b13, b14, b15, b16, b17, b18, b19, b20, b21, b22, b23, b24, b25, b26, b27, b28, b29, b30, b31, b32, b33, b34, b35, b36, b37, b38, b39, b40, b41, b42, b43, b44, b45, b46, b47]).ntp_origin
    obtain ⟨v0, v1, v2, v3, v4, v5, v6, v7, hv8⟩ := l8 (unpack_fields [b0, b1, b2, b3, b4, b5, b6, b7, b8, b9, b10, b11, b12, b13, b14, b15, b16, b17, b18, b19, b20, b21, b22, b23, b24, b25, b26, b27, b28, b29, b30, b31, b32, b33, b34, b35, b36, b37, b38, b39, b40, b41, b42, b43, b44, b45, b46, b47]).ntp_receive
    obtain ⟨t0, t1, t2, t3, t4, t5, t6, t7, ht8⟩ := l8 now
    rw [hd4, hp4, hr8, ho8, hv8, ht8, e9]
    simp only [List.cons_append, List.nil_append, List.append_assoc, List.take_succ_cons,
      List.take_zero, List.drop_succ_cons, List.drop_zero]

/-- C3, instantiated at `sample_buffer`, whose reference seconds lie before
1970. -/
theorem unpack_pack_inverse_witness :
    ∃ rp out np',
      NTP_Packet_Unpack none (some sample_buffer) 48 = some ⟨some rp, none⟩ ∧
      (rp.tagged ∧ rp.ntp_version < 8 ∧ rp.ntp_stratum < 15 ∧
        rp.ntp_delay.sec < 65536 ∧ rp.ntp_dispersion.sec < 65536) ∧
      NTP_Packet_Pack (some (List.replicate 48 0)) 48 rp sample_now = some (out, np', 48) ∧
      out.take 40 = sample_buffer.take 40 ∧ (out.drop 40).take 8 = wire64 sample_now :=
  unpack_pack_inverse sample_buffer (List.replicate 48 0) 48 sample_now none
    (by decide) (by decide) (by decide) (by decide) (by decide)

/-! ## When `NTP_Packet_Pack` returns -/

theorem ts_2ntp32_eq_some {ts : timestamp} {d : List Nat} (h : ts_2ntp32 ts = some d) :
    ts.magic = TIMESTAMP_MAGIC ∧ ts.sec < 65536 ∧ d = wire32 ts := by
  by_cases hm : ts.magic = TIMESTAMP_MAGIC
  · by_cases hs : ts.sec < 65536
    · rw [ts_2ntp32_eq ts hm hs] at h
      exact ⟨hm, hs, (Option.some.inj h).symm⟩
    · simp [ts_2ntp32, hm, hs] at h
  · simp [ts_2ntp32, hm] at h

theorem ts_2ntp64_eq_some {ts : timestamp} {d : List Nat} (h : ts_2ntp64 ts = some d) :
    ts.magic = TIMESTAMP_MAGIC ∧ d = wire64 ts := by
  by_cases hm : ts.magic = TIMESTAMP_MAGIC
  · rw [ts_2ntp64_eq ts hm] at h
    exact ⟨hm, (Option.some.inj h).symm⟩
  · simp [ts_2ntp64, hm] at h

theorem NTP_Packet_Pack_isSome {pbuf : List Nat} {len : Int} {np : ntp_packet} {now : timestamp}
    {res : List Nat × ntp_packet × Nat}
    (h : NTP_Packet_Pack (some pbuf) len np now = some res) : pack_accepts len np now := by
  unfold NTP_Packet_Pack at h
  simp only [ge_iff_le] at h
  split_ifs at h with h1 h2 h3 h4
  split at h
  · next d p r o v t hd hp hr ho hv ht =>
    obtain ⟨a1, a2, -⟩ := ts_2ntp32_eq_some hd
    obtain ⟨b1, b2, -⟩ := ts_2ntp32_eq_some hp
    exact ⟨h1, ⟨h2, a1, b1, (ts_2ntp64_eq_some hr).1, (ts_2ntp64_eq_some ho).1,
      (ts_2ntp64_eq_some hv).1⟩, h3, h4, a2, b2, (ts_2ntp64_eq_some ht).1⟩
  · exact absurd h (by simp)

/-! ## The retained transmit timestamp -/

theorem Be32dec_take (p : List Nat) (n : Nat) (hn : 4 ≤ n) :
    Be32dec (p.take n) = Be32dec p := by
  have g : ∀ i, i < 4 → (p.take n).getD i 0 = p.getD i 0 := by
    intro i hi
    simp only [List.getD_eq_getElem?_getD, List.getElem?_take]
    rw [if_pos (by omega)]
  simp only [Be32dec, g 0 (by omega), g 1 (by omega), g 2 (by omega), g 3 (by omega)]

theorem ntp64_2ts_take (p : List Nat) : ntp64_2ts (p.take 8) = ntp64_2ts p := by
  have e : (p.take 8).drop 4 = (p.drop 4).take 4 := by
    rw [List.drop_take]
  simp only [ntp64_2ts, e, Be32dec_take _ 8 (by omega), Be32dec_take _ 4 (by omega)]

/-- C4.  When `NTP_Packet_Pack` returns, the record's `ntp_transmit` is the
long-format decode of output bytes 40..47: the clock reading with `sec` reduced
modulo `2^32` and the low 32 bits of `frac` cleared, not the clock reading
itself.  `NTP_Packet_Unpack` of any 48-byte reply whose bytes 24..31 copy those
eight bytes yields exactly this timestamp as origin. -/
theorem pack_transmit_is_wire_decode (pbuf : List Nat) (len : Int) (np : ntp_packet)
    (now : timestamp) (out : List Nat) (np' : ntp_packet) (n : Nat)
    (h : NTP_Packet_Pack (some pbuf) len np now = some (out, np', n)) :
    np'.ntp_transmit = ntp64_2ts ((out.drop 40).take 8) ∧
    np'.ntp_transmit = ⟨TIMESTAMP_MAGIC, now.sec % 2 ^ 32, now.frac / 2 ^ 32 % 2 ^ 32 * 2 ^ 32⟩ ∧
    ∀ (reply : List Nat) (dst : Option ntp_packet),
      (reply.drop 24).take 8 = (out.drop 40).take 8 →
      ∃ rp, NTP_Packet_Unpack dst (some reply) 48 = some ⟨some rp, dst.map fun _ => rp⟩ ∧
        rp.ntp_origin = np'.ntp_transmit ∧
        rp.ntp_origin.sec = np'.ntp_transmit.sec ∧ rp.ntp_origin.frac = np'.ntp_transmit.frac := by
  obtain ⟨hlen, htag, hver, hstr, hd, hdisp, hnow⟩ := NTP_Packet_Pack_isSome h
  rw [NTP_Packet_Pack_eq pbuf len np now htag hnow hlen hver hstr hd hdisp] at h
  simp only [Option.some.injEq, Prod.mk.injEq] at h
  obtain ⟨hout, hnp, -⟩ := h
  have l4 : ∀ ts : timestamp, ∃ a b c d, wire32 ts = [a, b, c, d] :=
    fun ts => ⟨_, _, _, _, rfl⟩
  have l8 : ∀ ts : timestamp, ∃ a b c d e f g h, wire64 ts = [a, b, c, d, e, f, g, h] :=
    fun ts => ⟨_, _, _, _, _, _, _, _, rfl⟩
  have hbytes : (out.drop 40).take 8 = wire64 now := by
    obtain ⟨d0, d1, d2, d3, hd4⟩ := l4 np.ntp_delay
    obtain ⟨p0, p1, p2, p3, hp4⟩ := l4 np.ntp_dispersion
    obtain ⟨r0, r1, r2, r3, r4, r5, r6, r7, hr8⟩ := l8 np.ntp_reference
    obtain ⟨o0, o1, o2, o3, o4, o5, o6, o7, ho8⟩ := l8 np.ntp_origin
    obtain ⟨v0, v1, v2, v3, v4, v5, v6, v7, hv8⟩ := l8 np.ntp_receive
    obtain ⟨t0, t1, t2, t3, t4, t5, t6, t7, ht8⟩ := l8 now
    rw [← hout, hd4, hp4, hr8, ho8, hv8, ht8]
    simp only [refid_bytes, List.cons_append, List.nil_append, List.append_assoc,
      List.take_succ_cons, List.take_zero, List.drop_succ_cons, List.drop_zero]
  have htx : np'.ntp_transmit = ntp64_2ts (wire64 now) := by rw [← hnp]
  refine ⟨by rw [hbytes, htx], ?_, ?_⟩
  · rw [htx]
    have := ntp64_2ts_wire64 now []
    rwa [List.append_nil] at this
  · intro reply dst hcopy
    refine ⟨_, NTP_Packet_Unpack_48 dst reply, ?_⟩
    have e : (unpack_fields reply).ntp_origin = np'.ntp_transmit := by
      rw [htx, ← hbytes, ← hcopy, ntp64_2ts_take]
      rfl
    exact ⟨e, by rw [e], by rw [e]⟩

/-! ## Rounding to binary64 -/

theorem shiftRight_eq_zero_iff (n k : Nat) : n >>> k = 0 ↔ n < 2 ^ k := by
  rw [Nat.shiftRight_eq_div_pow, Nat.div_eq_zero_iff (Nat.two_pow_pos k)]

theorem one_shiftLeft (s : Nat) : 1 <<< s = 2 ^ s := by
  rw [Nat.shiftLeft_eq, one_mul]

theorem bitlen_cap_spec (fuel : Nat) : ∀ s n : Nat, n < 2 ^ 2 ^ (s + fuel) →
    n < 2 ^ 2 ^ bitlen_cap fuel s n := by
  induction fuel with
  | zero => intro s n h; simpa [bitlen_cap] using h
  | succ f ih =>
    intro s n h
    unfold bitlen_cap
    split_ifs with h0
    · rwa [shiftRight_eq_zero_iff, one_shiftLeft] at h0
    · exact ih (s + 1) n (by rwa [show s + 1 + f = s + (f + 1) by omega])

theorem bitlen_search_spec (s : Nat) : ∀ lo n : Nat, 2 ^ lo ≤ n → n < 2 ^ (lo + 2 ^ s) →
    2 ^ bitlen_search s lo n ≤ n ∧ n < 2 ^ (bitlen_search s lo n + 1) := by
  induction s with
  | zero => intro lo n h1 h2; exact ⟨h1, by simpa using h2⟩
  | succ t ih =>
    intro lo n h1 h2
    unfold bitlen_search
    simp only [one_shiftLeft, shiftRight_eq_zero_iff]
    split_ifs with h0
    · exact ih lo n h1 h0
    · rw [not_lt] at h0
      refine ih _ n h0 ?_
      rwa [show lo + 2 ^ t + 2 ^ t = lo + 2 ^ (t + 1) by rw [pow_succ]; omega]

/-- The defining property of `bitlen`: a positive `n` has exactly `bitlen n`
binary digits. -/
theorem bitlen_spec (n : Nat) (hn : n ≠ 0) :
    2 ^ (bitlen n - 1) ≤ n ∧ n < 2 ^ bitlen n := by
  unfold bitlen
  rw [if_neg hn]
  have hcap : n < 2 ^ 2 ^ bitlen_cap n 0 n := by
    apply bitlen_cap_spec
    rw [Nat.zero_add]
    exact lt_of_lt_of_le (Nat.lt_two_pow n) (Nat.pow_le_pow_right (by omega)
      (le_of_lt (Nat.lt_two_pow n)))
  have := bitlen_search_spec (bitlen_cap n 0 n) 0 n (by simpa using Nat.pos_of_ne_zero hn)
    (by simpa using hcap)
  simpa using this

theorem bitlen_zero : bitlen 0 = 0 := by simp [bitlen]

theorem lt_two_pow_bitlen (n : Nat) : n < 2 ^ bitlen n := by
  by_cases hn : n = 0
  · subst hn; simp
  · exact (bitlen_spec n hn).2

theorem bitlen_le_of_lt {n b : Nat} (h : n < 2 ^ b) : bitlen n ≤ b := by
  by_cases hn : n = 0
  · subst hn; simp [bitlen_zero]
  · have h1 := (bitlen_spec n hn).1
    have h2 : 2 ^ (bitlen n - 1) < 2 ^ b := lt_of_le_of_lt h1 h
    have h3 := (Nat.pow_lt_pow_iff_right (by omega : 1 < 2)).1 h2
    omega

/-- The function `round_nearest_even` in terms of quotient and remainder. -/
theorem round_nearest_even_eq (a k : Nat) :
    round_nearest_even a k =
      (if 2 * (a % 2 ^ max k (bitlen a - 53)) < 2 ^ max k (bitlen a - 53) then
          a / 2 ^ max k (bitlen a - 53)
        else if 2 ^ max k (bitlen a - 53) < 2 * (a % 2 ^ max k (bitlen a - 53)) then
          a / 2 ^ max k (bitlen a - 53) + 1
        else if a / 2 ^ max k (bitlen a - 53) % 2 = 0 then a / 2 ^ max k (bitlen a - 53)
        else a / 2 ^ max k (bitlen a - 53) + 1) * 2 ^ (max k (bitlen a - 53) - k) := by
  have hr : a - a / 2 ^ max k (bitlen a - 53) * 2 ^ max k (bitlen a - 53)
      = a % 2 ^ max k (bitlen a - 53) := by
    have := Nat.div_add_mod a (2 ^ max k (bitlen a - 53))
    rw [Nat.mul_comm] at this
    omega
  simp only [round_nearest_even, Nat.shiftRight_eq_div_pow, Nat.shiftLeft_eq, one_mul, hr]

/-- A value on the grid is not changed by rounding. -/
theorem round_nearest_even_of_dvd (a k : Nat) (h : 2 ^ max k (bitlen a - 53) ∣ a) :
    round_nearest_even a k = a / 2 ^ k := by
  rw [round_nearest_even_eq]
  have hk : k ≤ max k (bitlen a - 53) := le_max_left _ _
  generalize max k (bitlen a - 53) = S at h hk ⊢
  have hmod : a % 2 ^ S = 0 := Nat.mod_eq_zero_of_dvd h
  have hpos : 0 < 2 ^ S := Nat.two_pow_pos _
  rw [hmod, if_pos (by simp)]
  obtain ⟨c, rfl⟩ := h
  have e : 2 ^ S = 2 ^ k * 2 ^ (S - k) := by
    rw [← pow_add]; congr 1; omega
  rw [Nat.mul_div_cancel_left c hpos]
  conv_rhs => rw [e, Nat.mul_assoc, Nat.mul_div_cancel_left _ (Nat.two_pow_pos k)]
  rw [Nat.mul_comm]

/-- A value with at most 53 significant bits is not changed by rounding. -/
theorem round_nearest_even_mul_pow (m j k : Nat) (hm : m < 2 ^ 53) (hk : k ≤ j) :
    round_nearest_even (m * 2 ^ j) k = m * 2 ^ (j - k) := by
  have hb : bitlen (m * 2 ^ j) ≤ 53 + j := by
    apply bitlen_le_of_lt
    rw [pow_add]
    exact Nat.mul_lt_mul_of_pos_right hm (Nat.two_pow_pos j)
  have hsh : max k (bitlen (m * 2 ^ j) - 53) ≤ j := by
    rw [max_le_iff]; exact ⟨hk, by omega⟩
  rw [round_nearest_even_of_dvd _ _ (Dvd.dvd.mul_left (pow_dvd_pow 2 hsh) m)]
  have e : 2 ^ j = 2 ^ (j - k) * 2 ^ k := by rw [← pow_add]; congr 1; omega
  rw [e, ← Nat.mul_assoc, Nat.mul_div_cancel _ (Nat.two_pow_pos k)]

/-- Rounding to the grid never turns a non-zero sum or difference into zero. -/
theorem round_nearest_even_eq_zero (a : Nat) : round_nearest_even a 0 = 0 ↔ a = 0 := by
  constructor
  · intro h
    by_contra hne
    rw [round_nearest_even_eq] at h
    obtain ⟨hlo, -⟩ := bitlen_spec a hne
    have hq : 0 < a / 2 ^ max 0 (bitlen a - 53) := by
      apply Nat.div_pos _ (Nat.two_pow_pos _)
      refine le_trans (Nat.pow_le_pow_right (by omega) ?_) hlo
      rw [Nat.zero_max]; omega
    have hp : 0 < 2 ^ (max 0 (bitlen a - 53) - 0) := Nat.two_pow_pos _
    rcases Nat.mul_eq_zero.1 h with h0 | h0
    · split_ifs at h0 <;> omega
    · omega
  · rintro rfl
    decide

theorem f64_round_neg (x : Int) (k : Nat) : f64_round (-x) k = -f64_round x k := by
  unfold f64_round
  rcases lt_trichotomy x 0 with h | h | h
  · rw [if_neg (by omega), if_pos h, Int.natAbs_neg, neg_neg]
  · subst h; simp [round_nearest_even_eq]
  · rw [if_pos (by omega), if_neg (by omega), Int.natAbs_neg]

theorem f64_round_eq_zero (x : Int) : f64_round x 0 = 0 ↔ x = 0 := by
  unfold f64_round
  split_ifs with h
  · rw [neg_eq_zero, Int.natCast_eq_zero, round_nearest_even_eq_zero, Int.natAbs_eq_zero]
  · rw [Int.natCast_eq_zero, round_nearest_even_eq_zero, Int.natAbs_eq_zero]

/-- An integer with at most 53 significant bits, scaled by a power of two, is
representable: rounding returns it. -/
theorem f64_round_mul_pow (m : Int) (j k : Nat) (hm : m.natAbs < 2 ^ 53) (hk : k ≤ j) :
    f64_round (m * 2 ^ j) k = m * 2 ^ (j - k) := by
  have habs : (m * 2 ^ j).natAbs = m.natAbs * 2 ^ j := by
    rw [Int.natAbs_mul, Int.natAbs_pow]; rfl
  unfold f64_round
  rw [habs, round_nearest_even_mul_pow _ _ _ hm hk]
  have hp : (0 : Int) < 2 ^ j := by positivity
  split_ifs with h
  · have hm0 : m < 0 := by
      by_contra hc
      have : 0 ≤ m * 2 ^ j := mul_nonneg (by omega) hp.le
      omega
    push_cast
    rw [abs_of_neg hm0]
    ring
  · have hm0 : 0 ≤ m := by
      by_contra hc
      have : m * 2 ^ j < 0 := mul_neg_of_neg_of_pos (by omega) hp
      omega
    push_cast
    rw [abs_of_nonneg hm0]


theorem F64_UNIT_eq : F64_UNIT = 2 ^ F64_EXP := by
  simp only [F64_UNIT, Nat.shiftLeft_eq, one_mul]

theorem F64_EXP_ge : 64 ≤ F64_EXP := by decide

/-- The conversion to `double` is exact on integers with at most 53 significant
bits. -/
theorem f64_of_nat_mul_pow (m j : Nat) (hm : m < 2 ^ 53) :
    f64_of_nat (m * 2 ^ j) = (m : Int) * 2 ^ (j + F64_EXP) := by
  unfold f64_of_nat
  rw [F64_UNIT_eq]
  have e : ((m * 2 ^ j * 2 ^ F64_EXP : Nat) : Int) = (m : Int) * 2 ^ (j + F64_EXP) := by
    push_cast; ring
  rw [e, f64_round_mul_pow (m : Int) (j + F64_EXP) 0 (by simpa using hm) (Nat.zero_le _)]
  rfl

/-- The value of `TS_Diff` on timestamps that come from the long wire format:
no operand is rounded before the last addition. -/
theorem TS_Diff_wire_decoded (a b : timestamp) (ha : wire_decoded a) (hb : wire_decoded b) :
    TS_Diff a b = some (f64_round
      ((((a.frac / 2 ^ 32 : Nat) : Int) - ((b.frac / 2 ^ 32 : Nat) : Int)
        + (((a.sec : Nat) : Int) - ((b.sec : Nat) : Int)) * 2 ^ 32) * 2 ^ (F64_EXP - 32)) 0) := by
  obtain ⟨hma, hsa, hfa, ka, hka⟩ := ha
  obtain ⟨hmb, hsb, hfb, kb, hkb⟩ := hb
  have hE := F64_EXP_ge
  have hka' : ka < 2 ^ 32 := by omega
  have hkb' : kb < 2 ^ 32 := by omega
  have e1 : f64_of_nat a.frac = (ka : Int) * 2 ^ (32 + F64_EXP) := by
    rw [hka, Nat.mul_comm]
    exact f64_of_nat_mul_pow ka 32 (by omega)
  have e2 : f64_of_nat b.frac = (kb : Int) * 2 ^ (32 + F64_EXP) := by
    rw [hkb, Nat.mul_comm]
    exact f64_of_nat_mul_pow kb 32 (by omega)
  have e3 : f64_of_nat a.sec = (a.sec : Int) * 2 ^ (0 + F64_EXP) := by
    have := f64_of_nat_mul_pow a.sec 0 (by omega)
    rwa [pow_zero, Nat.mul_one] at this
  have e4 : f64_of_nat b.sec = (b.sec : Int) * 2 ^ (0 + F64_EXP) := by
    have := f64_of_nat_mul_pow b.sec 0 (by omega)
    rwa [pow_zero, Nat.mul_one] at this
  have e5 : f64_sub ((ka : Int) * 2 ^ (32 + F64_EXP)) ((kb : Int) * 2 ^ (32 + F64_EXP))
      = ((ka : Int) - kb) * 2 ^ (32 + F64_EXP - 0) := by
    unfold f64_sub
    rw [← sub_mul]
    exact f64_round_mul_pow _ (32 + F64_EXP) 0 (by omega) (by omega)
  have e6 : ldexp (((ka : Int) - kb) * 2 ^ (32 + F64_EXP - 0)) (-64)
      = ((ka : Int) - kb) * 2 ^ (32 + F64_EXP - 0 - 64) := by
    unfold ldexp
    rw [if_pos (by omega)]
    exact f64_round_mul_pow _ (32 + F64_EXP - 0) 64 (by omega) (by omega)
  have e7 : f64_sub ((a.sec : Int) * 2 ^ (0 + F64_EXP)) ((b.sec : Int) * 2 ^ (0 + F64_EXP))
      = ((a.sec : Int) - b.sec) * 2 ^ (0 + F64_EXP - 0) := by
    unfold f64_sub
    rw [← sub_mul]
    exact f64_round_mul_pow _ (0 + F64_EXP) 0 (by omega) (by omega)
  have d1 : a.frac / 2 ^ 32 = ka := by omega
  have d2 : b.frac / 2 ^ 32 = kb := by omega
  have x1 : 32 + F64_EXP - 0 - 64 = F64_EXP - 32 := by omega
  have x2 : (2 : Int) ^ (0 + F64_EXP - 0) = 2 ^ 32 * 2 ^ (F64_EXP - 32) := by
    rw [← pow_add, show 32 + (F64_EXP - 32) = 0 + F64_EXP - 0 by omega]
  have x3 : ((ka : Int) - kb) * 2 ^ (F64_EXP - 32)
        + ((a.sec : Int) - b.sec) * (2 ^ 32 * 2 ^ (F64_EXP - 32))
      = ((ka : Int) - kb + ((a.sec : Int) - b.sec) * 2 ^ 32) * 2 ^ (F64_EXP - 32) := by
    ring
  simp only [TS_Diff, hma, hmb, not_true_eq_false, if_false, e1, e2, e3, e4, e5, e6, e7, d1, d2,
    f64_add, x1, x2, x3]

/-- On timestamps from the long wire format `TS_Diff` is zero exactly when
`sec` and `frac` agree. -/
theorem TS_Diff_wire_decoded_eq_zero (a b : timestamp) (ha : wire_decoded a)
    (hb : wire_decoded b) :
    TS_Diff a b = some 0 ↔ a.sec = b.sec ∧ a.frac = b.frac := by
  rw [TS_Diff_wire_decoded a b ha hb, Option.some.injEq, f64_round_eq_zero]
  obtain ⟨-, hsa, hfa, ka, hka⟩ := ha
  obtain ⟨-, hsb, hfb, kb, hkb⟩ := hb
  have hp : (2 : Int) ^ (F64_EXP - 32) ≠ 0 := by positivity
  rw [mul_eq_zero, or_iff_left hp]
  omega

/-- Rounding never crosses a power of two. -/
theorem round_nearest_even_le_pow (a k p : Nat) (h : a ≤ 2 ^ (p + k)) :
    round_nearest_even a k ≤ 2 ^ p := by
  rw [round_nearest_even_eq]
  have hb : bitlen a ≤ p + k + 1 := bitlen_le_of_lt (lt_of_le_of_lt h
    (Nat.pow_lt_pow_right (by omega) (by omega)))
  have hk : k ≤ max k (bitlen a - 53) := le_max_left _ _
  have hS : max k (bitlen a - 53) ≤ p + k := by
    rw [max_le_iff]; exact ⟨by omega, by omega⟩
  generalize max k (bitlen a - 53) = S at hk hS ⊢
  have hpos : 0 < 2 ^ S := Nat.two_pow_pos S
  have e : 2 ^ (p + k) = 2 ^ (p + k - S) * 2 ^ S := by
    rw [← pow_add]; congr 1; omega
  have hq : a / 2 ^ S ≤ 2 ^ (p + k - S) := by
    apply Nat.div_le_of_le_mul
    rw [Nat.mul_comm, ← e]
    exact h
  have hdm := Nat.div_add_mod a (2 ^ S)
  have hq' : (if 2 * (a % 2 ^ S) < 2 ^ S then a / 2 ^ S
      else if 2 ^ S < 2 * (a % 2 ^ S) then a / 2 ^ S + 1
      else if a / 2 ^ S % 2 = 0 then a / 2 ^ S else a / 2 ^ S + 1) ≤ 2 ^ (p + k - S) := by
    by_cases hr : a % 2 ^ S = 0
    · rw [hr, if_pos (by omega)]; exact hq
    · have hlt : a / 2 ^ S < 2 ^ (p + k - S) := by
        by_contra hc
        have h1 : 2 ^ (p + k - S) ≤ a / 2 ^ S := by omega
        have h2 : 2 ^ (p + k - S) * 2 ^ S ≤ a / 2 ^ S * 2 ^ S := Nat.mul_le_mul_right _ h1
        rw [← e] at h2
        rw [Nat.mul_comm] at hdm
        omega
      split_ifs <;> omega
  calc _ ≤ 2 ^ (p + k - S) * 2 ^ (S - k) := Nat.mul_le_mul_right _ hq'
    _ = 2 ^ p := by rw [← pow_add]; congr 1; omega

theorem to_int32_of_range (y : Int) (h0 : -2147483648 ≤ y) (h1 : y < 2147483648) :
    to_int32 y = y := by
  unfold to_int32; omega

/-- The timeout computed for a budget that is negative but not below `-2^21`
seconds. -/
theorem UdpTimedRx_tmo_msec_neg (tmo : Int) (h : tmo < 0)
    (hr : -((2 ^ 21 * F64_UNIT : Nat) : Int) ≤ tmo) : UdpTimedRx_tmo_msec tmo = 0 := by
  have hUpos : 0 < F64_UNIT := by rw [F64_UNIT_eq]; exact Nat.two_pow_pos _
  unfold UdpTimedRx_tmo_msec
  rw [if_neg (show ¬ tmo = 0 by omega)]
  -- the product is negative and its magnitude is at most 2^31 seconds
  have hprod : 1000 * (F64_UNIT : Int) * tmo ≤ 0 := by
    have : (0 : Int) ≤ 1000 * (F64_UNIT : Int) := by omega
    exact mul_nonpos_of_nonneg_of_nonpos this h.le
  have habs : (1000 * (F64_UNIT : Int) * tmo).natAbs = 1000 * F64_UNIT * tmo.natAbs := by
    rw [Int.natAbs_mul, Int.natAbs_mul]; rfl
  have htm : tmo.natAbs ≤ 2 ^ 21 * F64_UNIT := by omega
  have hle : 1000 * F64_UNIT * tmo.natAbs ≤ 2 ^ (31 + F64_EXP + F64_EXP) := by
    calc 1000 * F64_UNIT * tmo.natAbs ≤ 1000 * F64_UNIT * (2 ^ 21 * F64_UNIT) :=
          Nat.mul_le_mul_left _ htm
      _ = (1000 * 2 ^ 21) * (F64_UNIT * F64_UNIT) := by ring
      _ ≤ 2 ^ 31 * (F64_UNIT * F64_UNIT) := Nat.mul_le_mul_right _ (by norm_num)
      _ = 2 ^ (31 + F64_EXP + F64_EXP) := by rw [F64_UNIT_eq]; ring
  have hrne := round_nearest_even_le_pow _ F64_EXP (31 + F64_EXP) hle
  have hx : ∃ m : Nat, f64_mul (1000 * (F64_UNIT : Int)) tmo = -(m : Int) ∧
      m ≤ 2 ^ 31 * F64_UNIT := by
    refine ⟨round_nearest_even (1000 * F64_UNIT * tmo.natAbs) F64_EXP, ?_, ?_⟩
    · unfold f64_mul f64_round
      rw [habs]
      split_ifs with hneg
      · rfl
      · have h0 : 1000 * (F64_UNIT : Int) * tmo = 0 := by omega
        have h1 : 1000 * F64_UNIT * tmo.natAbs = 0 := by
          rw [← habs, h0]; rfl
        rw [h1]
        simp [round_nearest_even_eq]
    · calc _ ≤ 2 ^ (31 + F64_EXP) := hrne
        _ = 2 ^ 31 * F64_UNIT := by rw [F64_UNIT_eq, pow_add]
  obtain ⟨m, hm, hmle⟩ := hx
  rw [hm]
  have hl : ∃ n : Nat, lround (-(m : Int)) = -(n : Int) ∧ n ≤ 2 ^ 31 := by
    refine ⟨(2 * m + F64_UNIT) / (2 * F64_UNIT), ?_, ?_⟩
    · unfold lround
      simp only [Int.natAbs_neg, Int.natAbs_ofNat]
      split_ifs with hneg
      · rfl
      · have : m = 0 := by omega
        subst this
        have : (2 * 0 + F64_UNIT) / (2 * F64_UNIT) = 0 := by
          rw [Nat.div_eq_zero_iff (by omega)]; omega
        rw [this]; rfl
    · rw [Nat.div_le_iff_le_mul_add_pred (by omega)]
      omega
  obtain ⟨n, hn, hnle⟩ := hl
  rw [hn, to_int32_of_range _ (by omega) (by omega)]
  simp

/-- C4, instantiated at `sample_packet` and `sample_now`: the retained transmit
timestamp is the clock reading with the low 32 bits of `frac` cleared. -/
theorem pack_transmit_is_wire_decode_witness :
    ∃ out np',
      NTP_Packet_Pack (some (List.replicate 48 0)) 48 sample_packet sample_now
        = some (out, np', 48) ∧
      np'.ntp_transmit = ntp64_2ts ((out.drop 40).take 8) ∧
      np'.ntp_transmit = ⟨TIMESTAMP_MAGIC, 1700000002, 2 ^ 63 + 2 ^ 32⟩ ∧
      np'.ntp_transmit ≠ sample_now := by
  have hp := NTP_Packet_Pack_eq (List.replicate 48 0) 48 sample_packet sample_now
    (by decide) (by decide) (by decide) (by decide) (by decide) (by decide) (by decide)
  obtain ⟨h1, h2, -⟩ := pack_transmit_is_wire_decode _ _ _ _ _ _ _ hp
  refine ⟨_, _, hp, h1, ?_, ?_⟩
  · rw [h2]; decide
  · rw [h2]; decide

/-! ## The short wire format -/

/-- C9.  For a tagged timestamp `ts_2ntp32` aborts exactly when `sec >= 65536`;
otherwise it stores `sec` as a 16-bit big-endian integer followed by the top 16
bits of `frac`.  `NTP_Packet_Pack` of a record whose delay or dispersion has
`sec >= 65536` aborts, whatever the other arguments. -/
theorem ts_2ntp32_overflow (ts : timestamp) (hm : ts.magic = TIMESTAMP_MAGIC)
    (hf : ts.frac < 2 ^ 64) :
    (ts_2ntp32 ts = none ↔ 65536 ≤ ts.sec) ∧
    (ts.sec < 65536 → ts_2ntp32 ts
      = some [ts.sec / 256, ts.sec % 256, ts.frac / 2 ^ 48 / 256, ts.frac / 2 ^ 48 % 256]) ∧
    ∀ (ptr : Option (List Nat)) (len : Int) (np : ntp_packet) (now : timestamp),
      (65536 ≤ np.ntp_delay.sec ∨ 65536 ≤ np.ntp_dispersion.sec) →
      NTP_Packet_Pack ptr len np now = none := by
  refine ⟨?_, ?_, ?_⟩
  · by_cases hs : ts.sec < 65536
    · rw [ts_2ntp32_eq ts hm hs]
      simp only [reduceCtorEq, false_iff, not_le]
      exact hs
    · simp only [ts_2ntp32, hm, hs, not_true_eq_false, not_false_eq_true, if_true, if_false,
        true_iff]
      omega
  · intro hs
    rw [ts_2ntp32_eq ts hm hs]
    simp only [wire32, Option.some.injEq, List.cons.injEq, and_true, true_and]
    omega
  · intro ptr len np now h
    cases hres : NTP_Packet_Pack ptr len np now with
    | none => rfl
    | some res =>
      cases ptr with
      | none => simp [NTP_Packet_Pack] at hres
      | some pbuf =>
        obtain ⟨-, -, -, -, hd, hp, -⟩ := NTP_Packet_Pack_isSome hres
        omega

/-- C9, instantiated at a delay of exactly 65536 seconds. -/
theorem ts_2ntp32_overflow_witness :
    ts_2ntp32 ⟨TIMESTAMP_MAGIC, 65536, 0⟩ = none ∧
    ts_2ntp32 ⟨TIMESTAMP_MAGIC, 65535, 2 ^ 63 + 2 ^ 48⟩ = some [255, 255, 128, 1] ∧
    NTP_Packet_Pack (some (List.replicate 48 0)) 48
      { sample_packet with ntp_delay := ⟨TIMESTAMP_MAGIC, 65536, 0⟩ } sample_now = none := by
  obtain ⟨h1, -, h3⟩ := ts_2ntp32_overflow ⟨TIMESTAMP_MAGIC, 65536, 0⟩ rfl (by decide)
  obtain ⟨-, h2, -⟩ := ts_2ntp32_overflow ⟨TIMESTAMP_MAGIC, 65535, 2 ^ 63 + 2 ^ 48⟩ rfl
    (by decide)
  exact ⟨h1.2 (by decide), h2 (by decide), h3 _ _ _ _ (Or.inl (by decide))⟩

/-! ## Correlation of reply and request -/

theorem ntp64_2ts_wire_decoded (p : List Nat) : wire_decoded (ntp64_2ts p) := by
  have h : Be32dec (p.drop 4) < 2 ^ 32 := Nat.mod_lt _ (by norm_num)
  refine ⟨rfl, Nat.mod_lt _ (by norm_num), Nat.mod_lt _ (by norm_num), ?_⟩
  show 2 ^ 32 ∣ Be32dec (p.drop 4) <<< 32 % 2 ^ 64
  rw [Nat.shiftLeft_eq, Nat.mod_eq_of_lt (by omega)]
  exact Dvd.intro_left _ rfl

theorem main_origin_matches_eq_true (tx_pkt rx_pkt : ntp_packet) :
    main_origin_matches tx_pkt rx_pkt = some true ↔
      TS_Diff tx_pkt.ntp_transmit rx_pkt.ntp_origin = some 0 := by
  unfold main_origin_matches
  cases TS_Diff tx_pkt.ntp_transmit rx_pkt.ntp_origin with
  | none => simp
  | some d => simp

/-- C5, as stated, fails: the test of `main` compares in `double`.  A reply
whose origin `frac` is one unit above the request's transmit `frac` (`2^63 + 1`
against `2^63`, same `sec`) is accepted, and so is a reply whose origin differs
in `sec` (`sec = 6, frac = 0` against `sec = 5, frac = 2^64 - 1`). -/
theorem origin_check_accepts_unequal :
    main_origin_matches { sample_packet with ntp_transmit := ⟨TIMESTAMP_MAGIC, 1000, 2 ^ 63⟩ }
      { sample_packet with ntp_origin := ⟨TIMESTAMP_MAGIC, 1000, 2 ^ 63 + 1⟩ } = some true ∧
    main_origin_matches { sample_packet with ntp_transmit := ⟨TIMESTAMP_MAGIC, 5, 2 ^ 64 - 1⟩ }
      { sample_packet with ntp_origin := ⟨TIMESTAMP_MAGIC, 6, 0⟩ } = some true := by
  constructor <;> decide

/-- C5, amended.  When the request transmit timestamp and the reply origin
timestamp both come from the long wire format (as they do in `main`), the test
accepts the reply only if `sec` and `frac` are both equal, and it rejects a
reply whose origin differs from the transmit timestamp by one wire unit of
`frac` (`2^32`) at equal `sec`. -/
theorem origin_check_exact_on_wire (tx_pkt rx_pkt : ntp_packet)
    (ht : wire_decoded tx_pkt.ntp_transmit) (ho : wire_decoded rx_pkt.ntp_origin) :
    (main_origin_matches tx_pkt rx_pkt = some true →
      tx_pkt.ntp_transmit.sec = rx_pkt.ntp_origin.sec ∧
      tx_pkt.ntp_transmit.frac = rx_pkt.ntp_origin.frac) ∧
    (tx_pkt.ntp_transmit.sec = rx_pkt.ntp_origin.sec →
      (rx_pkt.ntp_origin.frac = tx_pkt.ntp_transmit.frac + 2 ^ 32 ∨
        tx_pkt.ntp_transmit.frac = rx_pkt.ntp_origin.frac + 2 ^ 32) →
      main_origin_matches tx_pkt rx_pkt = some false) := by
  have key := TS_Diff_wire_decoded_eq_zero _ _ ht ho
  refine ⟨fun h => key.1 ((main_origin_matches_eq_true _ _).1 h), fun hs hf => ?_⟩
  have hne : ¬ (TS_Diff tx_pkt.ntp_transmit rx_pkt.ntp_origin = some 0) := by
    rw [key]; omega
  rw [TS_Diff_wire_decoded _ _ ht ho] at hne
  unfold main_origin_matches
  rw [TS_Diff_wire_decoded _ _ ht ho]
  simp only [Option.some.injEq] at hne
  exact congrArg some (decide_eq_false (not_not.2 hne))

/-- C5 amended, instantiated: one wire unit of difference is rejected. -/
theorem origin_check_exact_on_wire_witness :
    main_origin_matches { sample_packet with ntp_transmit := ⟨TIMESTAMP_MAGIC, 1000, 2 ^ 63⟩ }
      { sample_packet with ntp_origin := ⟨TIMESTAMP_MAGIC, 1000, 2 ^ 63 + 2 ^ 32⟩ }
      = some false :=
  (origin_check_exact_on_wire
    { sample_packet with ntp_transmit := ⟨TIMESTAMP_MAGIC, 1000, 2 ^ 63⟩ }
    { sample_packet with ntp_origin := ⟨TIMESTAMP_MAGIC, 1000, 2 ^ 63 + 2 ^ 32⟩ }
    (by decide) (by decide)).2 (by decide) (Or.inl (by decide))

/-! ## Offset and delay -/

/-- C7.  The offset and the delay that `main` prints are the formulas of the
specification with `T1` the echoed origin, `T2` the reply's receive timestamp,
`T3` the reply's transmit timestamp and `T4` the local receive time `ts_rx`.
For `T1 = (1000, 0)`, `T2 = T3 = (1000, 2^63)`, `T4 = (1001, 0)` the offset is
exactly `0.0` and the delay exactly `1.0`. -/
theorem offset_delay_formulas (rx_pkt : ntp_packet) :
    main_offset rx_pkt
      = offset_formula rx_pkt.ntp_origin rx_pkt.ntp_receive rx_pkt.ntp_transmit rx_pkt.ts_rx ∧
    main_delay rx_pkt
      = delay_formula rx_pkt.ntp_origin rx_pkt.ntp_receive rx_pkt.ntp_transmit rx_pkt.ts_rx ∧
    offset_formula ⟨TIMESTAMP_MAGIC, 1000, 0⟩ ⟨TIMESTAMP_MAGIC, 1000, 2 ^ 63⟩
      ⟨TIMESTAMP_MAGIC, 1000, 2 ^ 63⟩ ⟨TIMESTAMP_MAGIC, 1001, 0⟩ = some 0 ∧
    delay_formula ⟨TIMESTAMP_MAGIC, 1000, 0⟩ ⟨TIMESTAMP_MAGIC, 1000, 2 ^ 63⟩
      ⟨TIMESTAMP_MAGIC, 1000, 2 ^ 63⟩ ⟨TIMESTAMP_MAGIC, 1001, 0⟩ = some (F64_UNIT : Int) :=
  ⟨rfl, rfl, by decide, by decide⟩

/-! ## The receive timeout -/

/-- C10, as stated, fails: for the budget `0.0` the explicit test
`tmo == 0.0` selects the poll timeout `-1`, which blocks without limit.  The
budget `tmo - d` of `main` is exactly `0.0` when the clock reads one second
after the request was sent. -/
theorem zero_budget_blocks :
    UdpTimedRx_tmo_msec 0 = -1 ∧
    kt_now none 100 0 = some ⟨TIMESTAMP_MAGIC, 100, 0⟩ ∧
    kt_now none 101 0 = some ⟨TIMESTAMP_MAGIC, 101, 0⟩ ∧
    main_budget ⟨TIMESTAMP_MAGIC, 100, 0⟩ ⟨TIMESTAMP_MAGIC, 101, 0⟩ = some 0 := by
  refine ⟨by decide, by decide, by decide, by decide⟩

/-- C10, amended.  For every budget `tmo <= 0` that is not below `-2^21`
seconds, `UdpTimedRx` hands `poll` the timeout `0` when `tmo < 0`, and `-1`
when `tmo` is exactly `0.0`. -/
theorem nonpositive_budget_timeout (tmo : Int) (h : tmo ≤ 0)
    (hr : -((2 ^ 21 * F64_UNIT : Nat) : Int) ≤ tmo) :
    UdpTimedRx_tmo_msec tmo = if tmo = 0 then -1 else 0 := by
  by_cases h0 : tmo = 0
  · subst h0; decide
  · rw [if_neg h0]
    exact UdpTimedRx_tmo_msec_neg tmo (by omega) hr

/-- Below the range of `int` the millisecond count wraps: a budget of
`-4294967` seconds yields a positive timeout of 296 ms. -/
theorem budget_below_int_range :
    UdpTimedRx_tmo_msec (-((4294967 * F64_UNIT : Nat) : Int)) = 296 := by
  decide

/-- C10 amended, instantiated at a budget of `-0.25` seconds. -/
theorem nonpositive_budget_timeout_witness :
    UdpTimedRx_tmo_msec (-((F64_UNIT / 4 : Nat) : Int)) = 0 :=
  nonpositive_budget_timeout (-((F64_UNIT / 4 : Nat) : Int)) (by decide) (by decide)

/-! ## Socket address comparison -/

theorem memcmp_eq_zero_iff (n : Nat) : ∀ a b : List Nat,
    memcmp a b n = 0 ↔ ∀ i, i < n → a.getD i 0 = b.getD i 0 := by
  induction n with
  | zero => intro a b; simp [memcmp]
  | succ n ih =>
    intro a b
    have hd : ∀ l : List Nat, l.headD 0 = l.getD 0 0 := by
      intro l; cases l <;> rfl
    have tl : ∀ (l : List Nat) (i : Nat), l.tail.getD i 0 = l.getD (i + 1) 0 := by
      intro l i; cases l <;> simp
    unfold memcmp
    split_ifs with h
    · rw [ih]
      constructor
      · intro H i hi
        cases i with
        | zero => rw [← hd, ← hd]; exact h
        | succ j => rw [← tl, ← tl]; exact H j (by omega)
      · intro H i hi
        rw [tl, tl]; exact H (i + 1) (by omega)
    · constructor
      · intro H; omega
      · intro H
        exact absurd (by rw [hd, hd]; exact H 0 (by omega)) h

theorem sa_same_comm (abi : socket_abi) (s1 s2 : sockaddr) :
    sa_same abi s1 s2 ↔ sa_same abi s2 s1 := by
  unfold sa_same
  constructor
  · rintro ⟨hf, h | h⟩
    · exact ⟨hf.symm, Or.inl ⟨hf ▸ h.1, h.2.1.symm, fun i hi => (h.2.2 i hi).symm⟩⟩
    · exact ⟨hf.symm, Or.inr ⟨hf ▸ h.1, h.2.1.symm, h.2.2.1.symm,
        fun i hi => (h.2.2.2 i hi).symm⟩⟩
  · rintro ⟨hf, h | h⟩
    · exact ⟨hf.symm, Or.inl ⟨hf ▸ h.1, h.2.1.symm, fun i hi => (h.2.2 i hi).symm⟩⟩
    · exact ⟨hf.symm, Or.inr ⟨hf ▸ h.1, h.2.1.symm, h.2.2.1.symm,
        fun i hi => (h.2.2.2 i hi).symm⟩⟩

theorem SA_Equal_eq (abi : socket_abi) (s1 s2 : sockaddr) (sl1 sl2 : Nat)
    (hfam : abi.AF_INET ≠ abi.AF_INET6)
    (h1 : sa_len_ok abi s1 sl1) (h2 : sa_len_ok abi s2 sl2) :
    SA_Equal abi (some s1) sl1 (some s2) sl2 = some (if sa_same abi s1 s2 then 1 else 0) := by
  obtain ⟨a1, b1, c1⟩ := h1
  obtain ⟨a2, b2, c2⟩ := h2
  unfold SA_Equal sa_same
  simp only [ge_iff_le, a1, a2, not_true_eq_false, if_false, ne_eq, ite_not]
  by_cases hf : s1.sa_family = s2.sa_family
  · rw [if_pos hf]
    by_cases h4 : s1.sa_family = abi.AF_INET
    · have h6 : ¬ s1.sa_family = abi.AF_INET6 := fun h => hfam (h4.symm.trans h)
      simp only [h4, b1 h4, b2 (hf ▸ h4), if_true, not_true_eq_false, if_false, true_and,
        memcmp_eq_zero_iff, hfam, false_and, or_false, hf ▸ h4]
      split_ifs <;> first | rfl | (exfalso; tauto)
    · by_cases h6 : s1.sa_family = abi.AF_INET6
      · simp only [h6, c1 h6, c2 (hf ▸ h6), if_true, not_true_eq_false, if_false, true_and,
          memcmp_eq_zero_iff, hfam.symm, false_and, false_or, hf ▸ h6]
        split_ifs <;> first | rfl | (exfalso; tauto)
      · simp only [h4, h6, if_false, false_and, or_self, and_false]
  · simp only [hf, if_false, false_and]

/-- C6.  For two socket addresses with lengths sufficient for their families,
`SA_Equal` returns 1 exactly when the families are equal and either the family
is `AF_INET` and port and the 4 address bytes agree, or the family is
`AF_INET6` and port, scope id and the 16 address bytes agree; otherwise it
returns 0.  Addresses that differ only in the port, or IPv6 addresses that
differ only in the scope id, compare unequal, and the result does not depend
on the order of the arguments. -/
theorem SA_Equal_iff (abi : socket_abi) (s1 s2 : sockaddr) (sl1 sl2 : Nat)
    (hfam : abi.AF_INET ≠ abi.AF_INET6)
    (h1 : sa_len_ok abi s1 sl1) (h2 : sa_len_ok abi s2 sl2) :
    (SA_Equal abi (some s1) sl1 (some s2) sl2 = some 1 ∨
      SA_Equal abi (some s1) sl1 (some s2) sl2 = some 0) ∧
    (SA_Equal abi (some s1) sl1 (some s2) sl2 = some 1 ↔
      s1.sa_family = s2.sa_family ∧
      ((s1.sa_family = abi.AF_INET ∧ s1.sin_port = s2.sin_port ∧
          ∀ i, i < 4 → s1.sin_addr.getD i 0 = s2.sin_addr.getD i 0) ∨
       (s1.sa_family = abi.AF_INET6 ∧ s1.sin6_port = s2.sin6_port ∧
          s1.sin6_scope_id = s2.sin6_scope_id ∧
          ∀ i, i < 16 → s1.sin6_addr.getD i 0 = s2.sin6_addr.getD i 0))) ∧
    (s1.sa_family = abi.AF_INET → s1.sin_port ≠ s2.sin_port →
      SA_Equal abi (some s1) sl1 (some s2) sl2 = some 0) ∧
    (s1.sa_family = abi.AF_INET6 → s1.sin6_port ≠ s2.sin6_port →
      SA_Equal abi (some s1) sl1 (some s2) sl2 = some 0) ∧
    (s1.sa_family = abi.AF_INET6 → s1.sin6_scope_id ≠ s2.sin6_scope_id →
      SA_Equal abi (some s1) sl1 (some s2) sl2 = some 0) ∧
    SA_Equal abi (some s1) sl1 (some s2) sl2 = SA_Equal abi (some s2) sl2 (some s1) sl1 := by
  have e := SA_Equal_eq abi s1 s2 sl1 sl2 hfam h1 h2
  have e' := SA_Equal_eq abi s2 s1 sl2 sl1 hfam h2 h1
  have hc := sa_same_comm abi s1 s2
  refine ⟨?_, ?_, ?_, ?_, ?_, ?_⟩
  · rw [e]; by_cases h : sa_same abi s1 s2
    · left; rw [if_pos h]
    · right; rw [if_neg h]
  · rw [e]; by_cases h : sa_same abi s1 s2
    · rw [if_pos h]; exact ⟨fun _ => h, fun _ => rfl⟩
    · rw [if_neg h]
      exact ⟨fun hh => absurd hh (by simp), fun hh => absurd hh h⟩
  · intro h4 hp
    rw [e, if_neg]
    rintro ⟨-, h | h⟩
    · exact hp h.2.1
    · exact hfam (h4.symm.trans h.1)
  · intro h6 hp
    rw [e, if_neg]
    rintro ⟨-, h | h⟩
    · exact hfam (h.1.symm.trans h6)
    · exact hp h.2.1
  · intro h6 hs
    rw [e, if_neg]
    rintro ⟨-, h | h⟩
    · exact hfam (h.1.symm.trans h6)
    · exact hs h.2.2.1
  · rw [e, e']
    by_cases h : sa_same abi s1 s2
    · rw [if_pos h, if_pos (hc.1 h)]
    · rw [if_neg h, if_neg (fun h' => h (hc.2 h'))]

/-- C6, instantiated on Linux: an IPv4 address against itself with another
port, and an IPv6 address against itself with another scope id. -/
theorem SA_Equal_iff_witness :
    SA_Equal linux_abi (some sample_sa4) 16 (some { sample_sa4 with sin_port := 124 }) 16
      = some 0 ∧
    SA_Equal linux_abi (some sample_sa6) 28 (some { sample_sa6 with sin6_scope_id := 3 }) 28
      = some 0 ∧
    SA_Equal linux_abi (some sample_sa6) 28 (some sample_sa6) 28 = some 1 := by
  obtain ⟨-, -, h4, -, -, -⟩ := SA_Equal_iff linux_abi sample_sa4
    { sample_sa4 with sin_port := 124 } 16 16 (by decide) (by decide) (by decide)
  obtain ⟨-, -, -, -, h6, -⟩ := SA_Equal_iff linux_abi sample_sa6
    { sample_sa6 with sin6_scope_id := 3 } 28 28 (by decide) (by decide) (by decide)
  obtain ⟨-, hiff, -, -, -, -⟩ := SA_Equal_iff linux_abi sample_sa6 sample_sa6 28 28
    (by decide) (by decide) (by decide)
  exact ⟨h4 (by decide) (by decide), h6 (by decide) (by decide), hiff.2 (by decide)⟩

/-! ## Conversion from seconds and nanoseconds -/

theorem TS_Nanosec_eq (storage : Option timestamp) (sec nsec : Int)
    (hs0 : 0 ≤ sec) (hs1 : sec < 2 ^ 63) (hn0 : 0 ≤ nsec) (hn1 : nsec < 1000000000) :
    TS_Nanosec storage sec nsec
      = some ⟨TIMESTAMP_MAGIC, sec.toNat, nsec.toNat * NANO_FRAC⟩ := by
  have e1 : (sec % 2 ^ 64).toNat = sec.toNat := by omega
  have e2 : (nsec % 2 ^ 32).toNat = nsec.toNat := by omega
  have e3 : nsec.toNat * NANO_FRAC % 2 ^ 64 = nsec.toNat * NANO_FRAC := by
    unfold NANO_FRAC; omega
  have e4 : ts_fixstorage storage = ⟨TIMESTAMP_MAGIC, 0, 0⟩ := by
    cases storage <;> rfl
  simp only [TS_Nanosec, ge_iff_le, hs0, hn0, hn1, not_true_eq_false, if_false, e1, e2, e3, e4]

/-- C8.  For `sec >= 0` and `0 <= nsec < 10^9`, `TS_Nanosec` returns a
timestamp whose `sec` is the input and whose `frac` is `nsec * 18446744074`,
a product below `2^64`; converted back as the rational `frac * 10^9 / 2^64` it
differs from `nsec` by less than one nanosecond. -/
theorem TS_Nanosec_accuracy (storage : Option timestamp) (sec nsec : Int)
    (hs0 : 0 ≤ sec) (hs1 : sec < 2 ^ 63) (hn0 : 0 ≤ nsec) (hn1 : nsec < 1000000000) :
    ∃ ts, TS_Nanosec storage sec nsec = some ts ∧ (ts.sec : Int) = sec ∧
      nsec.toNat * 18446744074 < 2 ^ 64 ∧ ts.frac = nsec.toNat * 18446744074 ∧
      |(ts.frac : ℚ) * 10 ^ 9 / 2 ^ 64 - (nsec : ℚ)| < 1 := by
  refine ⟨_, TS_Nanosec_eq storage sec nsec hs0 hs1 hn0 hn1, ?_, ?_, rfl, ?_⟩
  · show ((sec.toNat : Nat) : Int) = sec
    omega
  · omega
  · show |((nsec.toNat * NANO_FRAC : Nat) : ℚ) * 10 ^ 9 / 2 ^ 64 - (nsec : ℚ)| < 1
    obtain ⟨n, rfl⟩ := Int.eq_ofNat_of_zero_le hn0
    have hn : (n : ℚ) < 1000000000 := by exact_mod_cast hn1
    have hn' : (0 : ℚ) ≤ n := by positivity
    simp only [Int.toNat_ofNat, NANO_FRAC, Nat.cast_mul, Nat.cast_ofNat, Int.cast_natCast]
    rw [abs_lt]
    constructor
    · rw [lt_sub_iff_add_lt, lt_div_iff₀ (by positivity)]
      norm_num
      nlinarith
    · rw [sub_lt_iff_lt_add, div_lt_iff₀ (by positivity)]
      norm_num
      nlinarith

/-- C8, instantiated at the largest nanosecond count. -/
theorem TS_Nanosec_accuracy_witness :
    ∃ ts, TS_Nanosec none 1700000000 999999999 = some ts ∧ (ts.sec : Int) = 1700000000 ∧
      (999999999 : Int).toNat * 18446744074 < 2 ^ 64 ∧
      ts.frac = (999999999 : Int).toNat * 18446744074 ∧
      |(ts.frac : ℚ) * 10 ^ 9 / 2 ^ 64 - ((999999999 : Int) : ℚ)| < 1 :=
  TS_Nanosec_accuracy none 1700000000 999999999 (by decide) (by decide) (by decide) (by decide)

/-! ## The long wire format -/

/-- C11, as stated, fails below the epoch offset: the eight zero bytes (wire
seconds `W = 0`) decode to `sec = 2085978496`, which is `W - 2208988800`
reduced modulo `2^32`; it is neither the integer `W - 2208988800` nor its
reduction modulo `2^64`. -/
theorem ntp64_2ts_below_epoch :
    (ntp64_2ts [0, 0, 0, 0, 0, 0, 0, 0]).sec = 2085978496 ∧
    ((ntp64_2ts [0, 0, 0, 0, 0, 0, 0, 0]).sec : Int) ≠ 0 - 2208988800 ∧
    ((ntp64_2ts [0, 0, 0, 0, 0, 0, 0, 0]).sec : Int) ≠ (0 - 2208988800) % 2 ^ 64 := by
  decide

/-- C11, amended.  For eight wire bytes with big-endian seconds `W` and
fraction `F`, `ntp64_2ts` yields `sec = (W - 2208988800) mod 2^32`, which is
`W - 2208988800` when `W >= 2208988800` and `W + 2^32 - 2208988800` otherwise,
and `frac = F * 2^32`.  `NTP_UNIX` is `((1970-1900)*365 + 17) * 86400 =
2208988800`, below `2^32`, so no step of its evaluation wraps. -/
theorem ntp64_2ts_value (b0 b1 b2 b3 b4 b5 b6 b7 : Nat) (rest : List Nat)
    (h0 : b0 < 256) (h1 : b1 < 256) (h2 : b2 < 256) (h3 : b3 < 256)
    (h4 : b4 < 256) (h5 : b5 < 256) (h6 : b6 < 256) (h7 : b7 < 256) :
    ((ntp64_2ts (b0 :: b1 :: b2 :: b3 :: b4 :: b5 :: b6 :: b7 :: rest)).sec : Int)
      = (((b0 * 2 ^ 24 + b1 * 2 ^ 16 + b2 * 2 ^ 8 + b3 : Nat) : Int) - 2208988800) % 2 ^ 32 ∧
    (2208988800 ≤ b0 * 2 ^ 24 + b1 * 2 ^ 16 + b2 * 2 ^ 8 + b3 →
      (ntp64_2ts (b0 :: b1 :: b2 :: b3 :: b4 :: b5 :: b6 :: b7 :: rest)).sec
        = b0 * 2 ^ 24 + b1 * 2 ^ 16 + b2 * 2 ^ 8 + b3 - 2208988800) ∧
    (b0 * 2 ^ 24 + b1 * 2 ^ 16 + b2 * 2 ^ 8 + b3 < 2208988800 →
      (ntp64_2ts (b0 :: b1 :: b2 :: b3 :: b4 :: b5 :: b6 :: b7 :: rest)).sec
        = b0 * 2 ^ 24 + b1 * 2 ^ 16 + b2 * 2 ^ 8 + b3 + 2 ^ 32 - 2208988800) ∧
    (ntp64_2ts (b0 :: b1 :: b2 :: b3 :: b4 :: b5 :: b6 :: b7 :: rest)).frac
      = (b4 * 2 ^ 24 + b5 * 2 ^ 16 + b6 * 2 ^ 8 + b7) * 2 ^ 32 ∧
    NTP_UNIX = ((1970 - 1900) * 365 + 17) * 86400 ∧ NTP_UNIX = 2208988800 ∧
    ((1970 - 1900) * 365 + 17) * 24 * 60 * 60 < 2 ^ 32 := by
  rw [ntp64_2ts_cons _ _ _ _ _ _ _ _ _ h0 h1 h2 h3 h4 h5 h6 h7]
  refine ⟨?_, ?_, ?_, ?_, by decide, by decide, by decide⟩
  · show (((b0 * 16777216 + b1 * 65536 + b2 * 256 + b3 + 4294967296 - 2208988800)
      % 4294967296 : Nat) : Int) = _
    omega
  · intro h
    show (b0 * 16777216 + b1 * 65536 + b2 * 256 + b3 + 4294967296 - 2208988800)
      % 4294967296 = _
    omega
  · intro h
    show (b0 * 16777216 + b1 * 65536 + b2 * 256 + b3 + 4294967296 - 2208988800)
      % 4294967296 = _
    omega
  · show (b4 * 16777216 + b5 * 65536 + b6 * 256 + b7) * 2 ^ 32 = _
    omega

/-- C11 amended, instantiated above and below the epoch offset. -/
theorem ntp64_2ts_value_witness :
    (ntp64_2ts [0x83, 0xAA, 0x7E, 0x81, 0x80, 0, 0, 1]).sec = 1 ∧
    (ntp64_2ts [0x83, 0xAA, 0x7E, 0x7F, 0x80, 0, 0, 1]).sec = 4294967295 ∧
    (ntp64_2ts [0x83, 0xAA, 0x7E, 0x81, 0x80, 0, 0, 1]).frac = (2 ^ 31 + 1) * 2 ^ 32 := by
  obtain ⟨-, ha, -, hf, -⟩ := ntp64_2ts_value 0x83 0xAA 0x7E 0x81 0x80 0 0 1 []
    (by decide) (by decide) (by decide) (by decide) (by decide) (by decide) (by decide)
    (by decide)
  obtain ⟨-, -, hb, -⟩ := ntp64_2ts_value 0x83 0xAA 0x7E 0x7F 0x80 0 0 1 []
    (by decide) (by decide) (by decide) (by decide) (by decide) (by decide) (by decide)
    (by decide)
  exact ⟨(ha (by decide)).trans (by decide), (hb (by decide)).trans (by decide),
    hf.trans (by decide)⟩

/-! ## The wire layout -/

theorem wire32_eq_be16 (ts : timestamp) (hf : ts.frac < 2 ^ 64) :
    wire32 ts = be16 ts.sec ++ be16 (ts.frac / 2 ^ 48) := by
  simp only [wire32, be16, List.cons_append, List.nil_append, List.cons.injEq, and_true,
    true_and]
  omega

theorem wire64_eq_be32 (ts : timestamp) (hf : ts.frac < 2 ^ 64) :
    wire64 ts = be32 ((ts.sec + 2208988800) % 2 ^ 32) ++ be32 (ts.frac / 2 ^ 32) := by
  simp only [wire64, be32, List.cons_append, List.nil_append, List.cons.injEq, and_true,
    true_and]
  omega

theorem wire32_length (ts : timestamp) : (wire32 ts).length = 4 := rfl

theorem wire64_length (ts : timestamp) : (wire64 ts).length = 8 := rfl

theorem refid_bytes_length (r : Nat × Nat × Nat × Nat) : (refid_bytes r).length = 4 := rfl

/-- The first 48 bytes and the rest of the buffer after `NTP_Packet_Pack`. -/
theorem packed_take_drop (np : ntp_packet) (now : timestamp) (rest : List Nat) :
    List.take 48 ([pack_byte0 np, np.ntp_stratum, np.ntp_poll, to_uint8 np.ntp_precision]
        ++ wire32 np.ntp_delay ++ wire32 np.ntp_dispersion ++ refid_bytes np.ntp_refid
        ++ wire64 np.ntp_reference ++ wire64 np.ntp_origin ++ wire64 np.ntp_receive
        ++ wire64 now ++ rest)
      = [pack_byte0 np, np.ntp_stratum, np.ntp_poll, to_uint8 np.ntp_precision]
        ++ wire32 np.ntp_delay ++ wire32 np.ntp_dispersion ++ refid_bytes np.ntp_refid
        ++ wire64 np.ntp_reference ++ wire64 np.ntp_origin ++ wire64 np.ntp_receive
        ++ wire64 now ∧
    List.drop 48 ([pack_byte0 np, np.ntp_stratum, np.ntp_poll, to_uint8 np.ntp_precision]
        ++ wire32 np.ntp_delay ++ wire32 np.ntp_dispersion ++ refid_bytes np.ntp_refid
        ++ wire64 np.ntp_reference ++ wire64 np.ntp_origin ++ wire64 np.ntp_receive
        ++ wire64 now ++ rest) = rest := by
  have hl : ([pack_byte0 np, np.ntp_stratum, np.ntp_poll, to_uint8 np.ntp_precision]
        ++ wire32 np.ntp_delay ++ wire32 np.ntp_dispersion ++ refid_bytes np.ntp_refid
        ++ wire64 np.ntp_reference ++ wire64 np.ntp_origin ++ wire64 np.ntp_receive
        ++ wire64 now).length = 48 := by
    simp only [List.length_append, wire32_length, wire64_length, refid_bytes_length,
      List.length_cons, List.length_nil]
  exact ⟨List.take_left' hl, List.drop_left' hl⟩

/-- C12.  For every record that `NTP_Packet_Pack` accepts, the 48 bytes written
are, big-endian: byte 0 `leap*64 + version*8 + mode`, stratum, poll, precision
in two's complement, the short-format delay and dispersion (16-bit `sec`, top
16 bits of `frac`), the four refid bytes, and the long-format reference,
origin, receive and transmit timestamps (32-bit `(sec + 2208988800) mod 2^32`,
top 32 bits of `frac`), where the transmit timestamp is the clock reading.  The
call returns 48 and leaves the buffer from offset 48 on as it was. -/
theorem pack_wire_layout (pbuf : List Nat) (len : Int) (np : ntp_packet) (now : timestamp)
    (out : List Nat) (np' : ntp_packet) (n : Nat)
    (hwf : np.wf) (hnow : now.wf) (hleap : np.ntp_leap ≤ 3) (hmode : np.ntp_mode ≤ 7)
    (h : NTP_Packet_Pack (some pbuf) len np now = some (out, np', n)) :
    out.take 48 =
      [np.ntp_leap * 64 + np.ntp_version * 8 + np.ntp_mode, np.ntp_stratum, np.ntp_poll,
        (np.ntp_precision % 256).toNat]
      ++ be16 np.ntp_delay.sec ++ be16 (np.ntp_delay.frac / 2 ^ 48)
      ++ be16 np.ntp_dispersion.sec ++ be16 (np.ntp_dispersion.frac / 2 ^ 48)
      ++ [np.ntp_refid.1, np.ntp_refid.2.1, np.ntp_refid.2.2.1, np.ntp_refid.2.2.2]
      ++ be32 ((np.ntp_reference.sec + 2208988800) % 2 ^ 32) ++ be32 (np.ntp_reference.frac / 2 ^ 32)
      ++ be32 ((np.ntp_origin.sec + 2208988800) % 2 ^ 32) ++ be32 (np.ntp_origin.frac / 2 ^ 32)
      ++ be32 ((np.ntp_receive.sec + 2208988800) % 2 ^ 32) ++ be32 (np.ntp_receive.frac / 2 ^ 32)
      ++ be32 ((now.sec + 2208988800) % 2 ^ 32) ++ be32 (now.frac / 2 ^ 32) ∧
    (out.drop 40).take 8 =
      be32 ((np'.ntp_transmit.sec + 2208988800) % 2 ^ 32) ++ be32 (np'.ntp_transmit.frac / 2 ^ 32) ∧
    n = 48 ∧ out.drop 48 = pbuf.drop 48 ∧ ∀ b ∈ out.take 48, b < 256 := by
  obtain ⟨hlen, htag, hver, hstr, hd, hdisp, hnm⟩ := NTP_Packet_Pack_isSome h
  rw [NTP_Packet_Pack_eq pbuf len np now htag hnm hlen hver hstr hd hdisp] at h
  simp only [Option.some.injEq, Prod.mk.injEq] at h
  obtain ⟨hout, hnp, hn⟩ := h
  obtain ⟨-, -, -, -, -, hpoll, ⟨hp0, hp1⟩, ⟨-, -, hdf⟩, ⟨-, -, hpf⟩, ⟨hr0, hr1, hr2, hr3⟩,
    ⟨-, -, hrf⟩, ⟨-, -, hof⟩, ⟨-, -, hvf⟩, -, -⟩ := hwf
  obtain ⟨-, -, hnf⟩ := hnow
  obtain ⟨htake, hdrop⟩ := packed_take_drop np now (pbuf.drop 48)
  rw [hout] at htake hdrop
  have hb0 := pack_byte0_eq np hleap hver hmode
  have htx : np'.ntp_transmit = ntp64_2ts (wire64 now) := by rw [← hnp]
  have htx' : np'.ntp_transmit
      = ⟨TIMESTAMP_MAGIC, now.sec % 2 ^ 32, now.frac / 2 ^ 32 % 2 ^ 32 * 2 ^ 32⟩ := by
    rw [htx]
    have := ntp64_2ts_wire64 now []
    rwa [List.append_nil] at this
  have e1 := wire32_eq_be16 np.ntp_delay hdf
  have e2 := wire32_eq_be16 np.ntp_dispersion hpf
  have e3 := wire64_eq_be32 np.ntp_reference hrf
  have e4 := wire64_eq_be32 np.ntp_origin hof
  have e5 := wire64_eq_be32 np.ntp_receive hvf
  have e6 := wire64_eq_be32 now hnf
  have hfirst : out.take 48 =
      [np.ntp_leap * 64 + np.ntp_version * 8 + np.ntp_mode, np.ntp_stratum, np.ntp_poll,
        (np.ntp_precision % 256).toNat]
      ++ be16 np.ntp_delay.sec ++ be16 (np.ntp_delay.frac / 2 ^ 48)
      ++ be16 np.ntp_dispersion.sec ++ be16 (np.ntp_dispersion.frac / 2 ^ 48)
      ++ [np.ntp_refid.1, np.ntp_refid.2.1, np.ntp_refid.2.2.1, np.ntp_refid.2.2.2]
      ++ be32 ((np.ntp_reference.sec + 2208988800) % 2 ^ 32) ++ be32 (np.ntp_reference.frac / 2 ^ 32)
      ++ be32 ((np.ntp_origin.sec + 2208988800) % 2 ^ 32) ++ be32 (np.ntp_origin.frac / 2 ^ 32)
      ++ be32 ((np.ntp_receive.sec + 2208988800) % 2 ^ 32) ++ be32 (np.ntp_receive.frac / 2 ^ 32)
      ++ be32 ((now.sec + 2208988800) % 2 ^ 32) ++ be32 (now.frac / 2 ^ 32) := by
    rw [htake, hb0, e1, e2, e3, e4, e5, e6]
    simp only [to_uint8, refid_bytes, List.append_assoc]
  refine ⟨hfirst, ?_, hn.symm, hdrop, ?_⟩
  · have hl : ([pack_byte0 np, np.ntp_stratum, np.ntp_poll, to_uint8 np.ntp_precision]
        ++ wire32 np.ntp_delay ++ wire32 np.ntp_dispersion ++ refid_bytes np.ntp_refid
        ++ wire64 np.ntp_reference ++ wire64 np.ntp_origin ++ wire64 np.ntp_receive).length
        = 40 := by
      simp only [List.length_append, wire32_length, wire64_length, refid_bytes_length,
        List.length_cons, List.length_nil]
    have h8 : (out.drop 40).take 8 = wire64 now := by
      have : (out.take 48).drop 40 = (out.drop 40).take 8 := by rw [List.drop_take]
      rw [← this, htake, List.drop_left' hl]
    have x1 : (now.sec % 2 ^ 32 + 2208988800) % 2 ^ 32 = (now.sec + 2208988800) % 2 ^ 32 := by
      omega
    have x2 : now.frac / 2 ^ 32 % 2 ^ 32 * 2 ^ 32 / 2 ^ 32 = now.frac / 2 ^ 32 := by omega
    rw [h8, e6, htx', x1, x2]
  · rw [hfirst]
    simp only [be16, be32, List.cons_append, List.nil_append, List.mem_cons, List.mem_singleton,
      forall_eq_or_imp, forall_eq, List.not_mem_nil, false_imp_iff, implies_true, and_true]
    constructorm* _ ∧ _ <;> omega

/-- C12, instantiated at `sample_packet` and `sample_now`. -/
theorem pack_wire_layout_witness :
    ∃ out np',
      NTP_Packet_Pack (some (List.replicate 50 7)) 50 sample_packet sample_now
        = some (out, np', 48) ∧
      out.take 48 = [0x64, 2, 6, 0xEC, 0, 3, 0x80, 0, 0xFF, 0xFF, 0xFF, 0xFF, 192, 168, 1, 255,
        0xE8, 0xFE, 0x6F, 0x80, 0xFF, 0xFF, 0xFF, 0xFF,
        0xE8, 0xFE, 0x6F, 0x81, 0, 0, 0, 2,
        0x83, 0xAA, 0x7E, 0x7F, 0, 0, 0, 0,
        0xE8, 0xFE, 0x6F, 0x82, 0x80, 0, 0, 1] ∧
      out.drop 48 = [7, 7] := by
  have hp := NTP_Packet_Pack_eq (List.replicate 50 7) 50 sample_packet sample_now
    (by decide) (by decide) (by decide) (by decide) (by decide) (by decide) (by decide)
  obtain ⟨h1, -, -, h4, -⟩ := pack_wire_layout _ _ _ _ _ _ _ (by decide) (by decide)
    (by decide) (by decide) hp
  exact ⟨_, _, hp, h1.trans (by decide), h4.trans (by decide)⟩

/-! ## Decoding any 48 bytes -/

/-- C13.  For every buffer of 48 bytes, whatever they are, `NTP_Packet_Unpack`
returns a record and no assertion fails; for the all-zero buffer the record
has leap 0, version 0, mode 0, stratum 0, poll 0, precision 0, refid zero and
delay and dispersion with `sec = 0` and `frac = 0`. -/
theorem unpack_total (dst : Option ntp_packet) (buf : List Nat) :
    (∃ rp, NTP_Packet_Unpack dst (some buf) 48 = some ⟨some rp, dst.map fun _ => rp⟩) ∧
    ∃ rz, NTP_Packet_Unpack dst (some (List.replicate 48 0)) 48
        = some ⟨some rz, dst.map fun _ => rz⟩ ∧
      rz.magic = NTP_PACKET_MAGIC ∧
      rz.ntp_leap = 0 ∧ rz.ntp_version = 0 ∧ rz.ntp_mode = 0 ∧ rz.ntp_stratum = 0 ∧
      rz.ntp_poll = 0 ∧ rz.ntp_precision = 0 ∧ rz.ntp_refid = (0, 0, 0, 0) ∧
      rz.ntp_delay = ⟨TIMESTAMP_MAGIC, 0, 0⟩ ∧ rz.ntp_dispersion = ⟨TIMESTAMP_MAGIC, 0, 0⟩ := by
  refine ⟨⟨_, NTP_Packet_Unpack_48 dst buf⟩, _, NTP_Packet_Unpack_48 dst _, ?_⟩
  decide

/-! ## The canonical request -/

/-- C14.  Whatever the record held before, `NTP_Tool_Client_Req` leaves it
with leap 3 (unknown), version 4, mode 3 (client), stratum 0, poll 4,
precision -6, delay and dispersion of exactly one second, refid zero and
reference, origin and receive timestamps with `sec = 0` and `frac = 0`; two
calls on different records leave the same record. -/
theorem client_req_record (prior other : ntp_packet) :
    (∃ np, NTP_Tool_Client_Req (some prior) = some np ∧
      np.magic = NTP_PACKET_MAGIC ∧
      np.ntp_leap = 3 ∧ np.ntp_version = 4 ∧ np.ntp_mode = 3 ∧ np.ntp_stratum = 0 ∧
      np.ntp_poll = 4 ∧ np.ntp_precision = -6 ∧
      np.ntp_delay = ⟨TIMESTAMP_MAGIC, 1, 0⟩ ∧ np.ntp_dispersion = ⟨TIMESTAMP_MAGIC, 1, 0⟩ ∧
      np.ntp_refid = (0, 0, 0, 0) ∧
      np.ntp_reference = ⟨TIMESTAMP_MAGIC, 0, 0⟩ ∧ np.ntp_origin = ⟨TIMESTAMP_MAGIC, 0, 0⟩ ∧
      np.ntp_receive = ⟨TIMESTAMP_MAGIC, 0, 0⟩) ∧
    NTP_Tool_Client_Req (some prior) = NTP_Tool_Client_Req (some other) :=
  ⟨⟨_, rfl, rfl, rfl, rfl, rfl, rfl, rfl, rfl, rfl, rfl, rfl, rfl, rfl, rfl⟩, rfl⟩

/-! ## The contract of `TS_Nanosec` -/

/-- C16.  `TS_Nanosec` aborts exactly when `sec < 0` or `nsec` lies outside
`[0, 10^9)`; for every other input it returns the tagged timestamp with `sec`
unchanged and `frac = nsec * 18446744074`, whether the caller supplied storage
(whose previous content is overwritten) or passed `NULL`. -/
theorem TS_Nanosec_contract (storage : Option timestamp) (sec nsec : Int)
    (hs : sec < 2 ^ 63) :
    (TS_Nanosec storage sec nsec = none ↔ sec < 0 ∨ nsec < 0 ∨ 1000000000 ≤ nsec) ∧
    (¬ (sec < 0 ∨ nsec < 0 ∨ 1000000000 ≤ nsec) →
      ∃ ts, TS_Nanosec storage sec nsec = some ts ∧ TS_Nanosec none sec nsec = some ts ∧
        ts.magic = TIMESTAMP_MAGIC ∧ (ts.sec : Int) = sec ∧
        (ts.frac : Int) = nsec * 18446744074) := by
  by_cases h : sec < 0 ∨ nsec < 0 ∨ 1000000000 ≤ nsec
  · refine ⟨⟨fun _ => h, fun _ => ?_⟩, fun hn => absurd h hn⟩
    unfold TS_Nanosec
    simp only [ge_iff_le]
    split_ifs <;> first | rfl | (exfalso; omega)
  · have h0 : 0 ≤ sec := by omega
    have h1 : 0 ≤ nsec := by omega
    have h2 : nsec < 1000000000 := by omega
    have e := TS_Nanosec_eq storage sec nsec h0 hs h1 h2
    have e' := TS_Nanosec_eq none sec nsec h0 hs h1 h2
    refine ⟨⟨fun hn => ?_, fun hh => absurd hh h⟩, fun _ => ⟨_, e, e', rfl, ?_, ?_⟩⟩
    · rw [e] at hn; exact absurd hn (by simp)
    · show ((sec.toNat : Nat) : Int) = sec
      omega
    · show ((nsec.toNat * NANO_FRAC : Nat) : Int) = nsec * 18446744074
      unfold NANO_FRAC
      omega

/-- C16, instantiated: a negative `sec`, an `nsec` of `10^9`, and a valid call
on storage that held something else. -/
theorem TS_Nanosec_contract_witness :
    TS_Nanosec none (-1) 0 = none ∧ TS_Nanosec none 0 1000000000 = none ∧
    TS_Nanosec (some ⟨7, 8, 9⟩) 5 3 = some ⟨TIMESTAMP_MAGIC, 5, 3 * 18446744074⟩ := by
  obtain ⟨h1, -⟩ := TS_Nanosec_contract none (-1) 0 (by decide)
  obtain ⟨h2, -⟩ := TS_Nanosec_contract none 0 1000000000 (by decide)
  obtain ⟨-, h3⟩ := TS_Nanosec_contract (some ⟨7, 8, 9⟩) 5 3 (by decide)
  obtain ⟨⟨m, s, f⟩, e, -, hm, hsec, hfrac⟩ := h3 (by decide)
  simp only at hm hsec hfrac
  have hs5 : s = 5 := by omega
  have hf3 : f = 3 * 18446744074 := by omega
  subst hm hs5 hf3
  exact ⟨h1.2 (by decide), h2.2 (by decide), e⟩

/-- C20.  `TS_Nanosec` preserves the lexicographic order: for valid inputs,
`(sec1, nsec1)` is below `(sec2, nsec2)` exactly when `(sec, frac)` of the
first result is below that of the second, and different nanosecond counts
give different `frac`. -/
theorem TS_Nanosec_order (s1 s2 : Option timestamp) (sec1 nsec1 sec2 nsec2 : Int)
    (ha0 : 0 ≤ sec1) (ha1 : sec1 < 2 ^ 63) (ha2 : 0 ≤ nsec1) (ha3 : nsec1 < 1000000000)
    (hb0 : 0 ≤ sec2) (hb1 : sec2 < 2 ^ 63) (hb2 : 0 ≤ nsec2) (hb3 : nsec2 < 1000000000) :
    ∃ t1 t2, TS_Nanosec s1 sec1 nsec1 = some t1 ∧ TS_Nanosec s2 sec2 nsec2 = some t2 ∧
      ((sec1 < sec2 ∨ (sec1 = sec2 ∧ nsec1 < nsec2)) ↔
        (t1.sec < t2.sec ∨ (t1.sec = t2.sec ∧ t1.frac < t2.frac))) ∧
      (nsec1 ≠ nsec2 → t1.frac ≠ t2.frac) := by
  refine ⟨_, _, TS_Nanosec_eq s1 sec1 nsec1 ha0 ha1 ha2 ha3,
    TS_Nanosec_eq s2 sec2 nsec2 hb0 hb1 hb2 hb3, ?_, ?_⟩
  · show _ ↔ (sec1.toNat < sec2.toNat ∨
      (sec1.toNat = sec2.toNat ∧ nsec1.toNat * NANO_FRAC < nsec2.toNat * NANO_FRAC))
    unfold NANO_FRAC
    omega
  · intro hne
    show nsec1.toNat * NANO_FRAC ≠ nsec2.toNat * NANO_FRAC
    unfold NANO_FRAC
    omega

/-- C20, instantiated at two instants one nanosecond apart. -/
theorem TS_Nanosec_order_witness :
    ∃ t1 t2, TS_Nanosec none 10 999999998 = some t1 ∧ TS_Nanosec none 10 999999999 = some t2 ∧
      (t1.sec < t2.sec ∨ (t1.sec = t2.sec ∧ t1.frac < t2.frac)) := by
  obtain ⟨t1, t2, e1, e2, hiff, -⟩ := TS_Nanosec_order none none 10 999999998 10 999999999
    (by decide) (by decide) (by decide) (by decide) (by decide) (by decide) (by decide)
    (by decide)
  exact ⟨t1, t2, e1, e2, hiff.1 (Or.inr ⟨rfl, by decide⟩)⟩

/-! ## What `NTP_Packet_Pack` refuses and accepts -/

/-- C17.  `NTP_Packet_Pack` aborts for every record with `stratum >= 15` or
`version >= 8` and for every stated buffer length below 48, whatever the other
arguments; for a tagged record with `stratum <= 14`, `version <= 7`,
`delay.sec` and `dispersion.sec` below 65536, a buffer with a stated length of
at least 48 and a tagged clock reading it returns 48. -/
theorem pack_refuses_and_accepts (ptr : Option (List Nat)) (pbuf : List Nat) (len : Int)
    (np : ntp_packet) (now : timestamp) :
    ((15 ≤ np.ntp_stratum ∨ 8 ≤ np.ntp_version ∨ len < 48) →
      NTP_Packet_Pack ptr len np now = none) ∧
    (np.tagged → now.magic = TIMESTAMP_MAGIC → np.ntp_stratum ≤ 14 → np.ntp_version ≤ 7 →
      np.ntp_delay.sec < 65536 → np.ntp_dispersion.sec < 65536 → 48 ≤ len →
      ∃ out np', NTP_Packet_Pack (some pbuf) len np now = some (out, np', 48)) := by
  constructor
  · intro h
    cases hres : NTP_Packet_Pack ptr len np now with
    | none => rfl
    | some res =>
      cases ptr with
      | none => simp [NTP_Packet_Pack] at hres
      | some p =>
        obtain ⟨h1, -, h3, h4, -⟩ := NTP_Packet_Pack_isSome hres
        omega
  · intro htag hnow hs hv hd hp hlen
    exact ⟨_, _, NTP_Packet_Pack_eq pbuf len np now htag hnow hlen (by omega) (by omega) hd hp⟩

/-- C17, instantiated: stratum 15, version 8 and a 47-byte buffer are refused,
and `sample_packet` is packed. -/
theorem pack_refuses_and_accepts_witness :
    NTP_Packet_Pack (some (List.replicate 48 0)) 48
      { sample_packet with ntp_stratum := 15 } sample_now = none ∧
    NTP_Packet_Pack (some (List.replicate 48 0)) 48
      { sample_packet with ntp_version := 8 } sample_now = none ∧
    NTP_Packet_Pack (some (List.replicate 47 0)) 47 sample_packet sample_now = none ∧
    ∃ out np', NTP_Packet_Pack (some (List.replicate 48 0)) 48 sample_packet sample_now
      = some (out, np', 48) :=
  ⟨(pack_refuses_and_accepts _ [] 48 { sample_packet with ntp_stratum := 15 } sample_now).1
      (Or.inl (by decide)),
    (pack_refuses_and_accepts _ [] 48 { sample_packet with ntp_version := 8 } sample_now).1
      (Or.inr (Or.inl (by decide))),
    (pack_refuses_and_accepts _ [] 47 sample_packet sample_now).1
      (Or.inr (Or.inr (by decide))),
    (pack_refuses_and_accepts none (List.replicate 48 0) 48 sample_packet sample_now).2
      (by decide) (by decide) (by decide) (by decide) (by decide) (by decide) (by decide)⟩

/-! ## Packing the canonical request -/

/-- C19.  For the record that `NTP_Tool_Client_Req` builds, a stated buffer
length of at least 48 and any tagged clock reading, `NTP_Packet_Pack` passes
all its assertions and returns 48; bytes 0..15 are
`E3 00 04 FA  00 01 00 00  00 01 00 00  00 00 00 00`, and the zeroed reference,
origin and receive timestamps are each written as `83 AA 7E 80 00 00 00 00`,
that is wire seconds 2208988800. -/
theorem pack_client_req (prior : ntp_packet) (pbuf : List Nat) (len : Int) (now : timestamp)
    (hlen : 48 ≤ len) (hnow : now.magic = TIMESTAMP_MAGIC) :
    ∃ req out np', NTP_Tool_Client_Req (some prior) = some req ∧
      NTP_Packet_Pack (some pbuf) len req now = some (out, np', 48) ∧
      out.take 16 = [0xE3, 0x00, 0x04, 0xFA, 0x00, 0x01, 0x00, 0x00,
        0x00, 0x01, 0x00, 0x00, 0x00, 0x00, 0x00, 0x00] ∧
      (out.drop 16).take 8 = [0x83, 0xAA, 0x7E, 0x80, 0, 0, 0, 0] ∧
      (out.drop 24).take 8 = [0x83, 0xAA, 0x7E, 0x80, 0, 0, 0, 0] ∧
      (out.drop 32).take 8 = [0x83, 0xAA, 0x7E, 0x80, 0, 0, 0, 0] ∧
      Be32dec (out.drop 16) = 2208988800 := by
  obtain ⟨req, hreq⟩ : ∃ req, NTP_Tool_Client_Req (some prior) = some req := ⟨_, rfl⟩
  have hp := NTP_Packet_Pack_eq pbuf len req now
    (by cases hreq; decide) hnow hlen (by cases hreq; decide) (by cases hreq; decide)
    (by cases hreq; decide) (by cases hreq; decide)
  have hA : [pack_byte0 req, req.ntp_stratum, req.ntp_poll, to_uint8 req.ntp_precision]
      ++ wire32 req.ntp_delay ++ wire32 req.ntp_dispersion ++ refid_bytes req.ntp_refid
      = [0xE3, 0x00, 0x04, 0xFA, 0x00, 0x01, 0x00, 0x00,
        0x00, 0x01, 0x00, 0x00, 0x00, 0x00, 0x00, 0x00] := by
    cases hreq; decide
  have hR : wire64 req.ntp_reference = [0x83, 0xAA, 0x7E, 0x80, 0, 0, 0, 0] := by
    cases hreq; decide
  have hO : wire64 req.ntp_origin = [0x83, 0xAA, 0x7E, 0x80, 0, 0, 0, 0] := by
    cases hreq; decide
  have hV : wire64 req.ntp_receive = [0x83, 0xAA, 0x7E, 0x80, 0, 0, 0, 0] := by
    cases hreq; decide
  refine ⟨req, _, _, hreq, hp, ?_⟩
  rw [hA, hR, hO, hV]
  simp only [List.cons_append, List.nil_append, List.append_assoc, List.take_succ_cons,
    List.take_zero, List.drop_succ_cons, List.drop_zero, true_and]
  rw [Be32dec_cons _ _ _ _ _ (by decide) (by decide) (by decide) (by decide)]

/-- C19, instantiated at the buffer of `main` (128 bytes) and `sample_now`. -/
theorem pack_client_req_witness :
    ∃ req out np', NTP_Tool_Client_Req (some sample_packet) = some req ∧
      NTP_Packet_Pack (some (List.replicate 128 0)) 128 req sample_now = some (out, np', 48) ∧
      out.take 16 = [0xE3, 0x00, 0x04, 0xFA, 0x00, 0x01, 0x00, 0x00,
        0x00, 0x01, 0x00, 0x00, 0x00, 0x00, 0x00, 0x00] ∧
      (out.drop 16).take 8 = [0x83, 0xAA, 0x7E, 0x80, 0, 0, 0, 0] ∧
      (out.drop 24).take 8 = [0x83, 0xAA, 0x7E, 0x80, 0, 0, 0, 0] ∧
      (out.drop 32).take 8 = [0x83, 0xAA, 0x7E, 0x80, 0, 0, 0, 0] ∧
      Be32dec (out.drop 16) = 2208988800 :=
  pack_client_req sample_packet (List.replicate 128 0) 128 sample_now (by decide) (by decide)

/-! ## Symmetry of `TS_Diff` -/

theorem f64_round_zero (k : Nat) : f64_round 0 k = 0 := by
  have h : round_nearest_even 0 k = 0 := by
    rw [round_nearest_even_eq]
    simp
  simp [f64_round, h]

theorem f64_sub_swap (x y : Int) : f64_sub y x = -f64_sub x y := by
  unfold f64_sub
  rw [← f64_round_neg, neg_sub]

theorem f64_add_neg (x y : Int) : f64_add (-x) (-y) = -f64_add x y := by
  unfold f64_add
  rw [← f64_round_neg, neg_add]

theorem ldexp_neg_arg (x : Int) : ldexp (-x) (-64) = -ldexp x (-64) := by
  unfold ldexp
  rw [if_pos (by omega), if_pos (by omega), f64_round_neg]

/-- C15.  For tagged timestamps `a` and `b` with any 64-bit `sec` and `frac`,
`TS_Diff(a, b)` is `(frac_a - frac_b) * 2^-64 + (sec_a - sec_b)` evaluated in
`double`, `TS_Diff(b, a)` is its negation, and `TS_Diff(a, a)` is zero. -/
theorem TS_Diff_antisymmetric (a b : timestamp) (ha : a.magic = TIMESTAMP_MAGIC)
    (hb : b.magic = TIMESTAMP_MAGIC) :
    ∃ d, TS_Diff a b = some d ∧ TS_Diff b a = some (-d) ∧ TS_Diff a a = some 0 ∧
      d = f64_add (ldexp (f64_sub (f64_of_nat a.frac) (f64_of_nat b.frac)) (-64))
        (f64_sub (f64_of_nat a.sec) (f64_of_nat b.sec)) := by
  refine ⟨_, ?_, ?_, ?_, rfl⟩
  · simp only [TS_Diff, ha, hb, not_true_eq_false, if_false]
  · simp only [TS_Diff, ha, hb, not_true_eq_false, if_false]
    rw [f64_sub_swap (f64_of_nat a.frac), f64_sub_swap (f64_of_nat a.sec), ldexp_neg_arg,
      f64_add_neg]
  · simp only [TS_Diff, ha, not_true_eq_false, if_false, f64_sub, sub_self, f64_round_zero,
      ldexp, f64_add, add_zero]
    simp [f64_round_zero]

/-- C15, instantiated at two timestamps whose difference is rounded. -/
theorem TS_Diff_antisymmetric_witness :
    ∃ d, TS_Diff ⟨TIMESTAMP_MAGIC, 2 ^ 63 + 1025, 2 ^ 64 - 1⟩ ⟨TIMESTAMP_MAGIC, 7, 12345⟩
        = some d ∧
      TS_Diff ⟨TIMESTAMP_MAGIC, 7, 12345⟩ ⟨TIMESTAMP_MAGIC, 2 ^ 63 + 1025, 2 ^ 64 - 1⟩
        = some (-d) ∧
      TS_Diff ⟨TIMESTAMP_MAGIC, 2 ^ 63 + 1025, 2 ^ 64 - 1⟩
        ⟨TIMESTAMP_MAGIC, 2 ^ 63 + 1025, 2 ^ 64 - 1⟩ = some 0 := by
  obtain ⟨d, h1, h2, h3, -⟩ := TS_Diff_antisymmetric
    ⟨TIMESTAMP_MAGIC, 2 ^ 63 + 1025, 2 ^ 64 - 1⟩ ⟨TIMESTAMP_MAGIC, 7, 12345⟩ rfl rfl
  exact ⟨d, h1, h2, h3⟩

/-! ## The correlation test on wire-decoded timestamps -/

/-- C18.  For timestamps `a` and `b` as the long-format decoder produces them
(`sec < 2^32`, `frac` a multiple of `2^32`), `TS_Diff(a, b)` returns a value,
and that value is `0.0` exactly when `a.sec = b.sec` and `a.frac = b.frac`; so
the test of the receive loop keeps a reply exactly when its origin equals the
retained transmit timestamp. -/
theorem TS_Diff_zero_iff_equal (a b : timestamp) (tx_pkt rx_pkt : ntp_packet)
    (ha : wire_decoded a) (hb : wire_decoded b)
    (htx : tx_pkt.ntp_transmit = a) (hrx : rx_pkt.ntp_origin = b) :
    (∃ d, TS_Diff a b = some d) ∧
    (TS_Diff a b = some 0 ↔ a.sec = b.sec ∧ a.frac = b.frac) ∧
    (main_origin_matches tx_pkt rx_pkt = some true ↔ a.sec = b.sec ∧ a.frac = b.frac) ∧
    (main_origin_matches tx_pkt rx_pkt = some false ↔ ¬ (a.sec = b.sec ∧ a.frac = b.frac)) := by
  have key := TS_Diff_wire_decoded_eq_zero a b ha hb
  have hval := TS_Diff_wire_decoded a b ha hb
  refine ⟨⟨_, hval⟩, key, ?_, ?_⟩
  · rw [main_origin_matches_eq_true, htx, hrx]; exact key
  · unfold main_origin_matches
    rw [htx, hrx, ← key, hval]
    simp only [Option.some.injEq, ne_eq, not_not, decide_eq_false_iff_not]

/-- C18, instantiated at two decoded timestamps that differ in the last wire
bit of the fraction, and at two equal ones. -/
theorem TS_Diff_zero_iff_equal_witness :
    main_origin_matches
      { sample_packet with ntp_transmit := ntp64_2ts [0xE8, 0xFE, 0x6F, 0x82, 0x80, 0, 0, 1] }
      { sample_packet with ntp_origin := ntp64_2ts [0xE8, 0xFE, 0x6F, 0x82, 0x80, 0, 0, 0] }
      = some false ∧
    main_origin_matches
      { sample_packet with ntp_transmit := ntp64_2ts [0xE8, 0xFE, 0x6F, 0x82, 0x80, 0, 0, 1] }
      { sample_packet with ntp_origin := ntp64_2ts [0xE8, 0xFE, 0x6F, 0x82, 0x80, 0, 0, 1] }
      = some true :=
  ⟨(TS_Diff_zero_iff_equal _ _
      { sample_packet with ntp_transmit := ntp64_2ts [0xE8, 0xFE, 0x6F, 0x82, 0x80, 0, 0, 1] }
      { sample_packet with ntp_origin := ntp64_2ts [0xE8, 0xFE, 0x6F, 0x82, 0x80, 0, 0, 0] }
      (ntp64_2ts_wire_decoded _) (ntp64_2ts_wire_decoded _) rfl rfl).2.2.2.2 (by decide),
   (TS_Diff_zero_iff_equal _ _
      { sample_packet with ntp_transmit := ntp64_2ts [0xE8, 0xFE, 0x6F, 0x82, 0x80, 0, 0, 1] }
      { sample_packet with ntp_origin := ntp64_2ts [0xE8, 0xFE, 0x6F, 0x82, 0x80, 0, 0, 1] }
      (ntp64_2ts_wire_decoded _) (ntp64_2ts_wire_decoded _) rfl rfl).2.2.1.2 (by decide)⟩

end NtimedTool

/-! ## The SHM reference clock client: `shm_poll` -/

namespace Shmc

theorem to_int_of_range (x : Int) (h1 : -2147483648 ≤ x) (h2 : x ≤ 2147483647) :
    to_int x = x := by
  unfold to_int; omega

/-- C21.  On an attached segment `shm_poll` returns 1 exactly when the snapshot
has mode 0 or 1, a non-zero `valid` and, in mode 1, a count equal to the one
read again from the segment; it then clears `valid` in the segment, and
otherwise returns 0, leaves the segment as it was and reports nothing.  An
accepted sample carries the seconds and the leap indicator of the snapshot; its
nanoseconds are the nanosecond fields when both of them, divided by 1000 as
`int`s, give the microsecond fields, and otherwise the `int` products
`1000 * receiveTimeStampUSec` and `1000 * clockTimeStampUSec`, which are the
exact products whenever those fit the type `int`. -/
theorem shm_poll_accepts (shm : shmTime) (count_reread : Int) :
    (shm_poll (some shm) count_reread).ret ∈ [0, 1] ∧
    ((shm_poll (some shm) count_reread).ret = 1 ↔
      ((shm.mode = 0 ∨ shm.mode = 1) ∧ shm.valid ≠ 0 ∧
        (shm.mode = 1 → count_reread = shm.count))) ∧
    ((shm_poll (some shm) count_reread).ret = 1 →
      (shm_poll (some shm) count_reread).shm = some { shm with valid := 0 } ∧
      ∃ s, (shm_poll (some shm) count_reread).sample = some s ∧
        s.receive_tv_sec = shm.receiveTimeStampSec ∧
        s.clock_tv_sec = shm.clockTimeStampSec ∧ s.leap = shm.leap ∧
        ((Int.tdiv shm.clockTimeStampNSec 1000 = shm.clockTimeStampUSec ∧
            Int.tdiv shm.receiveTimeStampNSec 1000 = shm.receiveTimeStampUSec) →
          s.receive_tv_nsec = shm.receiveTimeStampNSec ∧
          s.clock_tv_nsec = shm.clockTimeStampNSec) ∧
        (¬ (Int.tdiv shm.clockTimeStampNSec 1000 = shm.clockTimeStampUSec ∧
            Int.tdiv shm.receiveTimeStampNSec 1000 = shm.receiveTimeStampUSec) →
          s.receive_tv_nsec = to_int (1000 * shm.receiveTimeStampUSec) ∧
          s.clock_tv_nsec = to_int (1000 * shm.clockTimeStampUSec) ∧
          (-2147483648 ≤ 1000 * shm.receiveTimeStampUSec →
            1000 * shm.receiveTimeStampUSec ≤ 2147483647 →
            s.receive_tv_nsec = 1000 * shm.receiveTimeStampUSec) ∧
          (-2147483648 ≤ 1000 * shm.clockTimeStampUSec →
            1000 * shm.clockTimeStampUSec ≤ 2147483647 →
            s.clock_tv_nsec = 1000 * shm.clockTimeStampUSec))) ∧
    ((shm_poll (some shm) count_reread).ret ≠ 1 →
      (shm_poll (some shm) count_reread).ret = 0 ∧
      (shm_poll (some shm) count_reread).shm = some shm ∧
      (shm_poll (some shm) count_reread).sample = none) := by
  unfold shm_poll
  simp only []
  by_cases hrej : (shm.mode = 1 ∧ shm.count ≠ count_reread) ∨
      ¬ (shm.mode = 0 ∨ shm.mode = 1) ∨ shm.valid = 0
  · rw [if_pos hrej]
    refine ⟨by simp, ?_, by simp, by simp⟩
    simp only [zero_ne_one, false_iff]
    rintro ⟨hm, hv, hc⟩
    rcases hrej with ⟨h1, h2⟩ | h | h
    · exact h2 (hc h1).symm
    · exact h hm
    · exact hv h
  · rw [if_neg hrej]
    have hacc : (shm.mode = 0 ∨ shm.mode = 1) ∧ shm.valid ≠ 0 ∧
        (shm.mode = 1 → count_reread = shm.count) := by
      push_neg at hrej
      exact ⟨hrej.2.1, hrej.2.2, fun h => (hrej.1 h).symm⟩
    by_cases hboth : Int.tdiv shm.clockTimeStampNSec 1000 = shm.clockTimeStampUSec ∧
        Int.tdiv shm.receiveTimeStampNSec 1000 = shm.receiveTimeStampUSec
    · rw [if_pos hboth]
      refine ⟨by simp, ⟨fun _ => hacc, fun _ => rfl⟩, fun _ => ⟨rfl, _, rfl, rfl, rfl, rfl,
        fun _ => ⟨rfl, rfl⟩, fun h => absurd hboth h⟩, fun h => absurd rfl h⟩
    · rw [if_neg hboth]
      refine ⟨by simp, ⟨fun _ => hacc, fun _ => rfl⟩, fun _ => ⟨rfl, _, rfl, rfl, rfl, rfl,
        fun h => absurd h hboth, fun _ => ⟨rfl, rfl, fun h1 h2 => to_int_of_range _ h1 h2,
          fun h1 h2 => to_int_of_range _ h1 h2⟩⟩, fun h => absurd rfl h⟩

/-- C21, instantiated at a mode 1 sample read with an unchanged count (accepted
with its nanosecond fields), at the same sample read with a changed count
(ignored), and at a mode 0 sample whose clock nanoseconds disagree with the
microseconds (accepted with 1000 times the microsecond fields). -/
theorem shm_poll_accepts_witness :
    ((shm_poll (some sample_shm) 42).ret = 1 ∧
      (shm_poll (some sample_shm) 42).shm = some { sample_shm with valid := 0 } ∧
      (shm_poll (some sample_shm) 42).sample =
        some ⟨1700000000, 123999001, 1700000000, 123456789, 0⟩) ∧
    ((shm_poll (some sample_shm) 43).ret = 0 ∧
      (shm_poll (some sample_shm) 43).shm = some sample_shm ∧
      (shm_poll (some sample_shm) 43).sample = none) ∧
    ((shm_poll (some { sample_shm with mode := 0, clockTimeStampNSec := 5 }) 43).ret = 1 ∧
      (shm_poll (some { sample_shm with mode := 0, clockTimeStampNSec := 5 }) 43).sample =
        some ⟨1700000000, 123999000, 1700000000, 123456000, 0⟩) := by
  refine ⟨?_, ?_, ?_⟩
  · have hret := (shm_poll_accepts sample_shm 42).2.1.2 (by decide)
    obtain ⟨hshm, s, hs, h1, h2, h3, h4, -⟩ := (shm_poll_accepts sample_shm 42).2.2.1 hret
    obtain ⟨h5, h6⟩ := h4 (by decide)
    refine ⟨hret, hshm, ?_⟩
    rw [hs]
    cases s
    simp only at h1 h2 h3 h5 h6
    subst h1 h2 h3 h5 h6
    rfl
  · exact (shm_poll_accepts sample_shm 43).2.2.2
      (mt (shm_poll_accepts sample_shm 43).2.1.1 (by decide))
  · have hret := (shm_poll_accepts { sample_shm with mode := 0, clockTimeStampNSec := 5 } 43).2.1.2
      (by decide)
    obtain ⟨-, s, hs, h1, h2, h3, -, h4⟩ :=
      (shm_poll_accepts { sample_shm with mode := 0, clockTimeStampNSec := 5 } 43).2.2.1 hret
    obtain ⟨-, -, h5, h6⟩ := h4 (by decide)
    have h7 := h5 (by decide) (by decide)
    have h8 := h6 (by decide) (by decide)
    refine ⟨hret, ?_⟩
    rw [hs]
    cases s
    simp only at h1 h2 h3 h7 h8
    subst h1 h2 h3 h7 h8
    rfl

end Shmc
